import Mathlib

/-!
Verification of the analytics core of a personal daily-tracking application.

Each definition below is a shallow embedding of a JavaScript function of the
repository, translated statement by statement:

* `analyzeSleepData`        - DATA_SCHEMA.md, sleep interval analyzer
* `calculateSleepDuration`  - trackers/sleep.js, slot-counting duration
* `fillMissingDates`        - analytics/utils.js, series normalizer
* `aggregateByDaysChunk`    - analytics/charts.js `_aggregateByDays` (per chunk)
* `sleepChunk`              - analytics/charts.js `_aggregateSleepRaw` (per chunk)
* `calculateAverage`, `calculateCorrelation` - DATA_SCHEMA.md statistics
* `analyzeCaffeineImpact`, `analyzeSleepImpact` - DATA_SCHEMA.md pattern miner
* `getOffsetDateRange`, `navigatePeriod` - analytics/analytics.js
* `haGetMsg` and the `_msg*` band functions - analytics/habits-analytics.js

JavaScript numbers are modelled by `ℚ` (no floating point is needed: all the
programs' arithmetic on the inputs considered is exact), `Math.round` by
`jsRound` (floor of x + 1/2, which is exactly JS half-up rounding), and
`x.toFixed(0)` by `jsToFixed0` (half away from zero).  Absent object fields
are modelled by `Option`.  JS `Array.prototype.sort` (stable since ES2019)
with a numeric comparator is modelled by the stable `List.insertionSort`.
-/

/-- `String(n).padStart(2, "0")` for a digit. -/
def digitStr : ℕ → String
  | 0 => "0" | 1 => "1" | 2 => "2" | 3 => "3" | 4 => "4"
  | 5 => "5" | 6 => "6" | 7 => "7" | 8 => "8" | 9 => "9"
  | _ => ""

/-- `String(n).padStart(2, "0")` for `n < 100` (the only values the code
feeds it: hours 0..24 and minutes 0 or 30). -/
def pad2 (n : ℕ) : String :=
  if n < 10 then "0" ++ digitStr n else digitStr (n / 10) ++ digitStr (n % 10)

/-- JS `Math.round`: floor of `x + 1/2` (half-up, also for negatives:
`Math.round(-2.5) = -2`). -/
def jsRound (q : ℚ) : ℤ := Rat.floor (q + 1/2)

/-- JS `x.toFixed(0)` read back as an integer: rounds half away from zero. -/
def jsToFixed0 (q : ℚ) : ℤ :=
  if 0 ≤ q then jsRound q else -jsRound (-q)

/-- JS falsy-default `v || d` for an optional numeric field: `undefined`,
`null` and `0` all fall back to the default. -/
def jsOr (v : Option ℚ) (d : ℚ) : ℚ :=
  match v with
  | none => d
  | some x => if x = 0 then d else x

section SleepAnalyzer

/-- One contiguous asleep run; `start`/`stop` are inclusive slot indices
(`stop` embeds the JS field `end`, a Lean keyword). -/
structure SleepPeriod where
  start : ℕ
  stop : ℕ
  duration : ℚ
deriving DecidableEq, Repr

/-- The object returned by `analyzeSleepData`.  In the empty result the JS
object simply lacks `mainSleepDuration`/`naps`/`napCount`/`totalNapDuration`;
reading them gives `undefined`, modelled here by the neutral defaults. -/
structure SleepAnalysis where
  duration : ℚ
  bedtime : Option String
  wakeTime : Option String
  mainSleepDuration : ℚ
  periods : List SleepPeriod
  naps : List SleepPeriod
  hasNaps : Bool
  napCount : ℕ
  totalNapDuration : ℚ
deriving DecidableEq, Repr

/-- The zeroed result returned for a malformed array or an all-awake day. -/
def emptySleepAnalysis : SleepAnalysis :=
  { duration := 0, bedtime := none, wakeTime := none, mainSleepDuration := 0,
    periods := [], naps := [], hasNaps := false, napCount := 0,
    totalNapDuration := 0 }

/-- The period-collecting loop of `analyzeSleepData`: scans the array left to
right carrying the run currently open (`cur`), `i` being the index of the
next slot. -/
def findPeriodsAux : List Bool → ℕ → Option (ℕ × ℕ) → List (ℕ × ℕ)
  | [], _, none => []
  | [], _, some p => [p]
  | b :: rest, i, cur =>
    if b then
      match cur with
      | none => findPeriodsAux rest (i+1) (some (i, i))
      | some su => findPeriodsAux rest (i+1) (some (su.1, i))
    else
      match cur with
      | none => findPeriodsAux rest (i+1) none
      | some p => p :: findPeriodsAux rest (i+1) none

/-- `formatTimeFromSlot` of DATA_SCHEMA.md (also `formatTime` of
trackers/sleep.js): `HH:MM` with `HH = floor(slot/2)`, `MM = (slot%2)*30`. -/
def formatTimeFromSlot (slot : ℕ) : String :=
  pad2 (slot / 2) ++ ":" ++ pad2 ((slot % 2) * 30)

/-- The local `periods` of `analyzeSleepData` before duration annotation. -/
def rawPeriods (sleepArray : List Bool) : List (ℕ × ℕ) :=
  findPeriodsAux sleepArray 0 none

/-- `period.duration = (period.end - period.start + 1) / 2`. -/
def mkPeriod (p : ℕ × ℕ) : SleepPeriod :=
  ⟨p.1, p.2, ((p.2 + 1 - p.1 : ℕ) : ℚ) / 2⟩

/-- The local `periods` of `analyzeSleepData` with durations attached. -/
def sleepPeriods (sleepArray : List Bool) : List SleepPeriod :=
  (rawPeriods sleepArray).map mkPeriod

/-- The local `sortedPeriods`: JS `sort((a,b) => b.duration - a.duration)`,
a stable sort by descending duration, modelled by the stable
`List.insertionSort` keeping `a` before `b` when the comparator is `≤ 0`. -/
def sortedSleepPeriods (sleepArray : List Bool) : List SleepPeriod :=
  List.insertionSort (fun a b => b.duration ≤ a.duration) (sleepPeriods sleepArray)

/-- The local `mainSleep = sortedPeriods[0]`. -/
def mainSleepOf (sleepArray : List Bool) : SleepPeriod :=
  (sortedSleepPeriods sleepArray).headD ⟨0, 0, 0⟩

/-- The local `naps = sortedPeriods.slice(1).filter(p => p.duration >= 0.5)`. -/
def napsOf (sleepArray : List Bool) : List SleepPeriod :=
  ((sortedSleepPeriods sleepArray).drop 1).filter (fun p => 1/2 ≤ p.duration)

/-- `analyzeSleepData(sleepArray)` of DATA_SCHEMA.md. -/
def analyzeSleepData (sleepArray : List Bool) : SleepAnalysis :=
  if sleepArray.length ≠ 48 then emptySleepAnalysis
  else if (sleepPeriods sleepArray).isEmpty then emptySleepAnalysis
  else
    { duration := ((sleepPeriods sleepArray).map SleepPeriod.duration).sum,
      bedtime := some (formatTimeFromSlot (mainSleepOf sleepArray).start),
      wakeTime := some (formatTimeFromSlot ((mainSleepOf sleepArray).stop + 1)),
      mainSleepDuration := (mainSleepOf sleepArray).duration,
      periods := sleepPeriods sleepArray,
      naps := napsOf sleepArray,
      hasNaps := !(napsOf sleepArray).isEmpty,
      napCount := (napsOf sleepArray).length,
      totalNapDuration := ((napsOf sleepArray).map SleepPeriod.duration).sum }

/-- `calculateSleepDuration()` of trackers/sleep.js, applied to a given
occupancy array: number of `true` slots divided by 2. -/
def calculateSleepDuration (sleepData : List Bool) : ℚ :=
  if sleepData.length = 0 then 0
  else ((sleepData.filter (fun slot => slot = true)).length : ℚ) / 2

end SleepAnalyzer

section SleepAnalyzerLemmas

/-- `(s, e)` is a maximal run of `true` slots of `arr`: all slots from `s`
to `e` (inclusive) are asleep and the run can be extended in neither
direction. -/
def isMaxRun (arr : List Bool) (s e : ℕ) : Prop :=
  s ≤ e ∧ e < arr.length ∧
  (∀ k, s ≤ k → k ≤ e → arr.getD k false = true) ∧
  (s = 0 ∨ arr.getD (s-1) false = false) ∧
  (e + 1 = arr.length ∨ arr.getD (e+1) false = false)

lemma drop_cons_facts {arr rest' : List Bool} {b : Bool} {i : ℕ}
    (h : arr.drop i = b :: rest') :
    i < arr.length ∧ arr.getD i false = b ∧ arr.drop (i+1) = rest' := by
  have hlen : i < arr.length := by
    by_contra hlt
    push_neg at hlt
    rw [List.drop_eq_nil_of_le hlt] at h
    exact List.noConfusion h
  refine ⟨hlen, ?_, ?_⟩
  · have h0 : arr[i]? = some b := by
      have := List.getElem?_drop arr i 0
      rw [h] at this
      simpa using this.symm
    simp [List.getD_eq_getElem?_getD, h0]
  · have h2 := List.drop_drop 1 i arr
    rw [h] at h2
    simp only [List.drop_succ_cons, List.drop_zero] at h2
    exact h2.symm

/-- The scanning loop emits exactly the maximal runs of `true` slots (at or
after the scan position, together with the run currently open). -/
lemma findPeriodsAux_mem (rest : List Bool) :
    ∀ (arr : List Bool) (i : ℕ) (cur : Option (ℕ × ℕ)),
      arr.drop i = rest →
      (cur = none → i = 0 ∨ arr.getD (i-1) false = false) →
      (∀ s₀ j, cur = some (s₀, j) →
         j + 1 = i ∧ s₀ ≤ j ∧ j < arr.length ∧
         (∀ k, s₀ ≤ k → k ≤ j → arr.getD k false = true) ∧
         (s₀ = 0 ∨ arr.getD (s₀-1) false = false)) →
      ∀ s e, ((s, e) ∈ findPeriodsAux rest i cur ↔
        isMaxRun arr s e ∧
          (match cur with
           | none => i ≤ s
           | some su => s = su.1 ∨ i ≤ s)) := by
  induction rest with
  | nil =>
    intro arr i cur hdrop hnone hsome s e
    have hlen : arr.length ≤ i := by
      have := congrArg List.length hdrop
      simp only [List.length_drop, List.length_nil] at this
      omega
    cases cur with
    | none =>
      rw [show findPeriodsAux [] i none = [] from rfl]
      simp only [List.not_mem_nil, false_iff]
      rintro ⟨⟨h1, h2, -⟩, h3⟩
      have h3' : i ≤ s := h3
      omega
    | some su =>
      obtain ⟨s₀, j⟩ := su
      obtain ⟨hj, hs₀j, hjlen, hrun, hleft⟩ := hsome s₀ j rfl
      rw [show findPeriodsAux [] i (some (s₀, j)) = [(s₀, j)] from rfl]
      simp only [List.mem_singleton, Prod.mk.injEq]
      constructor
      · rintro ⟨rfl, rfl⟩
        exact ⟨⟨hs₀j, hjlen, hrun, hleft, Or.inl (by omega)⟩, Or.inl rfl⟩
      · rintro ⟨⟨h1, h2, hrun', hleft', hright'⟩, hcase⟩
        have hcase' : s = s₀ ∨ i ≤ s := hcase
        have hs : s = s₀ := by
          rcases hcase' with h | h
          · exact h
          · omega
        subst hs
        refine ⟨rfl, ?_⟩
        by_contra hne
        have he : e < j ∨ j < e := by omega
        rcases he with he | he
        · rcases hright' with h | h
          · omega
          · have := hrun (e+1) (by omega) (by omega)
            rw [this] at h
            exact Bool.noConfusion h
        · omega
  | cons b rest' ih =>
    intro arr i cur hdrop hnone hsome s e
    obtain ⟨hi, hb, hdrop'⟩ := drop_cons_facts hdrop
    cases b with
    | true =>
      cases cur with
      | none =>
        have hn := hnone rfl
        have hstep : findPeriodsAux (true :: rest') i none
            = findPeriodsAux rest' (i+1) (some (i, i)) := by
          simp [findPeriodsAux]
        rw [hstep, ih arr (i+1) (some (i, i)) hdrop' (by simp)
          (by
            rintro s₀ j h
            injection h with h'
            injection h' with ha hb'
            subst ha
            subst hb'
            exact ⟨rfl, le_refl _, hi, by
              intro k hk1 hk2
              have hki : k = i := by omega
              rw [hki]; exact hb, hn⟩)]
        simp only
        constructor
        · rintro ⟨h1, h2⟩
          exact ⟨h1, by omega⟩
        · rintro ⟨h1, h2⟩
          exact ⟨h1, by omega⟩
      | some su =>
        obtain ⟨s₀, j⟩ := su
        obtain ⟨hj, hs₀j, hjlen, hrun, hleft⟩ := hsome s₀ j rfl
        have hstep : findPeriodsAux (true :: rest') i (some (s₀, j))
            = findPeriodsAux rest' (i+1) (some (s₀, i)) := by
          simp [findPeriodsAux]
        rw [hstep, ih arr (i+1) (some (s₀, i)) hdrop' (by simp)
          (by
            rintro s₁ j₁ h
            injection h with h'
            injection h' with ha hb'
            subst ha
            subst hb'
            refine ⟨rfl, by omega, hi, ?_, hleft⟩
            intro k hk1 hk2
            by_cases hk : k ≤ j
            · exact hrun k hk1 hk
            · have : k = i := by omega
              rw [this]; exact hb)]
        simp only
        constructor
        · rintro ⟨h1, h2⟩
          refine ⟨h1, ?_⟩
          rcases h2 with h | h
          · exact Or.inl h
          · exact Or.inr (by omega)
        · rintro ⟨h1, h2⟩
          refine ⟨h1, ?_⟩
          rcases h2 with h | h
          · exact Or.inl h
          · right
            have hsne : s ≠ i := by
              rintro rfl
              obtain ⟨-, -, -, hl, -⟩ := h1
              rcases hl with hl | hl
              · omega
              · have : s - 1 = j := by omega
                rw [this] at hl
                have := hrun j hs₀j (le_refl j)
                rw [this] at hl
                exact Bool.noConfusion hl
            omega
    | false =>
      cases cur with
      | none =>
        have hstep : findPeriodsAux (false :: rest') i none
            = findPeriodsAux rest' (i+1) none := by
          simp [findPeriodsAux]
        rw [hstep, ih arr (i+1) none hdrop' (by intro _; right; simpa using hb)
          (by rintro s₀ j h; exact Option.noConfusion h)]
        simp only
        constructor
        · rintro ⟨h1, h2⟩
          exact ⟨h1, by omega⟩
        · rintro ⟨h1, h2⟩
          refine ⟨h1, ?_⟩
          have hsne : s ≠ i := by
            rintro rfl
            obtain ⟨h3, -, hr, -, -⟩ := h1
            have := hr s (le_refl s) (by omega)
            rw [this] at hb
            exact Bool.noConfusion hb
          omega
      | some su =>
        obtain ⟨s₀, j⟩ := su
        obtain ⟨hj, hs₀j, hjlen, hrun, hleft⟩ := hsome s₀ j rfl
        have hstep : findPeriodsAux (false :: rest') i (some (s₀, j))
            = (s₀, j) :: findPeriodsAux rest' (i+1) none := by
          simp [findPeriodsAux]
        have hclosed : arr.getD (j+1) false = false := by
          rw [hj]; exact hb
        have hmax₀ : isMaxRun arr s₀ j := ⟨hs₀j, hjlen, hrun, hleft, Or.inr hclosed⟩
        rw [hstep]
        rw [List.mem_cons, ih arr (i+1) none hdrop'
          (by intro _; right; simpa using hb)
          (by rintro s₁ j₁ h; exact Option.noConfusion h)]
        simp only [Prod.mk.injEq]
        constructor
        · rintro (⟨rfl, rfl⟩ | ⟨h1, h2⟩)
          · exact ⟨hmax₀, Or.inl rfl⟩
          · exact ⟨h1, Or.inr (by omega)⟩
        · rintro ⟨h1, h2⟩
          by_cases hs : s = s₀
          · subst hs
            left
            refine ⟨rfl, ?_⟩
            obtain ⟨h3, h4, hrun', hleft', hright'⟩ := h1
            by_contra hne
            have he : e < j ∨ j < e := by omega
            rcases he with he | he
            · rcases hright' with hcl | hcl
              · omega
              · have := hrun (e+1) (by omega) (by omega)
                rw [this] at hcl
                exact Bool.noConfusion hcl
            · have := hrun' i (by omega) (by omega)
              rw [this] at hb
              exact Bool.noConfusion hb
          · right
            refine ⟨h1, ?_⟩
            have his : i ≤ s := by
              rcases h2 with h | h
              · exact absurd h hs
              · exact h
            have hsne : s ≠ i := by
              rintro rfl
              obtain ⟨h3, -, hr, -, -⟩ := h1
              have := hr s (le_refl s) (by omega)
              rw [this] at hb
              exact Bool.noConfusion hb
            omega

/-- Top-level run characterization: the periods found by the scan are
exactly the maximal runs of `true` slots. -/
lemma rawPeriods_mem (arr : List Bool) (s e : ℕ) :
    (s, e) ∈ rawPeriods arr ↔ isMaxRun arr s e := by
  have := findPeriodsAux_mem arr arr 0 none (by simp)
    (by intro _; exact Or.inl rfl)
    (by rintro s₀ j h; exact Option.noConfusion h) s e
  rw [rawPeriods, this]
  simp

end SleepAnalyzerLemmas

/-- Run lengths collected by the scan add up to the number of `true` slots. -/
lemma findPeriodsAux_sum (rest : List Bool) :
    ∀ (i : ℕ) (cur : Option (ℕ × ℕ)),
      (∀ s₀ j, cur = some (s₀, j) → j + 1 = i ∧ s₀ ≤ j) →
      ((findPeriodsAux rest i cur).map (fun p => p.2 + 1 - p.1)).sum
        = rest.count true
          + (match cur with | none => 0 | some su => su.2 + 1 - su.1) := by
  induction rest with
  | nil =>
    intro i cur hsome
    cases cur with
    | none => simp [findPeriodsAux]
    | some su => simp [findPeriodsAux]
  | cons b rest' ih =>
    intro i cur hsome
    cases b with
    | true =>
      cases cur with
      | none =>
        rw [show findPeriodsAux (true :: rest') i none
            = findPeriodsAux rest' (i+1) (some (i, i)) from rfl]
        rw [ih (i+1) (some (i, i)) (by
          rintro s₀ j h
          injection h with h'
          injection h' with ha hb'
          subst ha
          subst hb'
          exact ⟨rfl, le_refl _⟩)]
        simp [List.count_cons]
      | some su =>
        obtain ⟨s₀, j⟩ := su
        obtain ⟨hj, hsj⟩ := hsome s₀ j rfl
        rw [show findPeriodsAux (true :: rest') i (some (s₀, j))
            = findPeriodsAux rest' (i+1) (some (s₀, i)) from rfl]
        rw [ih (i+1) (some (s₀, i)) (by
          rintro s₁ j₁ h
          injection h with h'
          injection h' with ha hb'
          subst ha
          subst hb'
          exact ⟨rfl, by omega⟩)]
        have hc : (true :: rest').count true = rest'.count true + 1 := by simp
        change rest'.count true + (i + 1 - s₀)
          = (true :: rest').count true + (j + 1 - s₀)
        omega
    | false =>
      cases cur with
      | none =>
        rw [show findPeriodsAux (false :: rest') i none
            = findPeriodsAux rest' (i+1) none from rfl]
        rw [ih (i+1) none (by rintro s₀ j h; exact Option.noConfusion h)]
        simp [List.count_cons]
      | some su =>
        obtain ⟨s₀, j⟩ := su
        rw [show findPeriodsAux (false :: rest') i (some (s₀, j))
            = (s₀, j) :: findPeriodsAux rest' (i+1) none from rfl]
        simp only [List.map_cons, List.sum_cons]
        rw [ih (i+1) none (by rintro s₁ j₁ h; exact Option.noConfusion h)]
        have hc : (false :: rest').count true = rest'.count true := by simp
        change j + 1 - s₀ + (rest'.count true + 0)
          = (false :: rest').count true + (j + 1 - s₀)
        omega

/-- Top-level version of the sum lemma. -/
lemma rawPeriods_sum (arr : List Bool) :
    ((rawPeriods arr).map (fun p => p.2 + 1 - p.1)).sum = arr.count true := by
  have := findPeriodsAux_sum arr 0 none
    (by rintro s₀ j h; exact Option.noConfusion h)
  simpa [rawPeriods] using this

/-- On an all-awake array the scan finds nothing. -/
lemma findPeriodsAux_all_false (rest : List Bool) :
    ∀ i, (∀ b ∈ rest, b = false) → findPeriodsAux rest i none = [] := by
  induction rest with
  | nil => intro i _; rfl
  | cons b rest' ih =>
    intro i hall
    have hb : b = false := hall b (List.mem_cons_self b rest')
    subst hb
    rw [show findPeriodsAux (false :: rest') i none
        = findPeriodsAux rest' (i+1) none from rfl]
    exact ih (i+1) (fun b hb => hall b (List.mem_cons_of_mem _ hb))

/-- If some slot is `true`, the scan finds at least one run. -/
lemma rawPeriods_ne_nil (arr : List Bool) (h : arr.count true ≠ 0) :
    rawPeriods arr ≠ [] := by
  intro hnil
  have := rawPeriods_sum arr
  rw [hnil] at this
  simp at this
  exact h this.symm

/-- Casting the weight sum to `ℚ` and halving gives the total duration. -/
lemma sum_map_duration (l : List (ℕ × ℕ)) :
    ((l.map mkPeriod).map SleepPeriod.duration).sum
      = ((l.map (fun p => p.2 + 1 - p.1)).sum : ℕ) / 2 := by
  induction l with
  | nil => simp
  | cons p l ih =>
    simp only [List.map_cons, List.sum_cons, ih, mkPeriod]
    push_cast
    ring

/-- The main sleep is one of the found periods (array nonempty case). -/
lemma mainSleepOf_mem (arr : List Bool) (h : sleepPeriods arr ≠ []) :
    mainSleepOf arr ∈ sleepPeriods arr := by
  have hperm := List.perm_insertionSort
    (fun a b : SleepPeriod => b.duration ≤ a.duration) (sleepPeriods arr)
  have hne : sortedSleepPeriods arr ≠ [] := by
    intro hnil
    rw [sortedSleepPeriods] at hnil
    rw [hnil] at hperm
    exact h hperm.symm.eq_nil
  have hmem : mainSleepOf arr ∈ sortedSleepPeriods arr := by
    rw [mainSleepOf]
    cases hsp : sortedSleepPeriods arr with
    | nil => exact absurd hsp hne
    | cons a l => simp
  rw [sortedSleepPeriods] at hmem
  exact hperm.mem_iff.mp hmem

/-- The main sleep has maximal duration among all found periods. -/
lemma mainSleepOf_max (arr : List Bool) (q : SleepPeriod)
    (hq : q ∈ sleepPeriods arr) : q.duration ≤ (mainSleepOf arr).duration := by
  haveI : IsTotal SleepPeriod (fun a b => b.duration ≤ a.duration) :=
    ⟨fun a b => le_total b.duration a.duration⟩
  haveI : IsTrans SleepPeriod (fun a b => b.duration ≤ a.duration) :=
    ⟨fun a b c h1 h2 => le_trans h2 h1⟩
  have hsorted := List.sorted_insertionSort
    (fun a b : SleepPeriod => b.duration ≤ a.duration) (sleepPeriods arr)
  have hperm := List.perm_insertionSort
    (fun a b : SleepPeriod => b.duration ≤ a.duration) (sleepPeriods arr)
  have hmem : q ∈ sortedSleepPeriods arr := by
    rw [sortedSleepPeriods]
    exact hperm.mem_iff.mpr hq
  rw [mainSleepOf]
  cases hsp : sortedSleepPeriods arr with
  | nil => rw [hsp] at hmem; exact absurd hmem (List.not_mem_nil q)
  | cons a l =>
    rw [hsp] at hmem
    rw [sortedSleepPeriods] at hsp
    rw [hsp] at hsorted
    rcases List.mem_cons.mp hmem with h | h
    · rw [h]; simp
    · simpa using (List.sorted_cons.mp hsorted).1 q h

/-- Unfolding of `analyzeSleepData` when the array is well-formed and some
slot is asleep. -/
lemma analyzeSleepData_pos (arr : List Bool) (h48 : arr.length = 48)
    (hne : sleepPeriods arr ≠ []) :
    (analyzeSleepData arr).duration
        = ((sleepPeriods arr).map SleepPeriod.duration).sum ∧
    (analyzeSleepData arr).bedtime
        = some (formatTimeFromSlot (mainSleepOf arr).start) ∧
    (analyzeSleepData arr).wakeTime
        = some (formatTimeFromSlot ((mainSleepOf arr).stop + 1)) ∧
    (analyzeSleepData arr).mainSleepDuration = (mainSleepOf arr).duration := by
  rw [analyzeSleepData]
  simp [h48, List.isEmpty_iff, hne]

/-- All-awake day: `analyzeSleepData` returns the zeroed result. -/
lemma analyzeSleepData_no_sleep (arr : List Bool) (hcount : arr.count true = 0) :
    analyzeSleepData arr = emptySleepAnalysis := by
  have hall : ∀ b ∈ arr, b = false := by
    intro b hb
    cases b with
    | false => rfl
    | true => exact absurd hb (List.count_eq_zero.mp hcount)
  have hraw : rawPeriods arr = [] :=
    findPeriodsAux_all_false arr 0 hall
  have hsp : sleepPeriods arr = [] := by
    rw [sleepPeriods, hraw]; rfl
  rw [analyzeSleepData]
  by_cases h48 : arr.length ≠ 48
  · simp [h48]
  · simp [h48, hsp]

/-- The asleep-slot count determines the total duration, however the slots
are distributed over runs. -/
lemma analyzeSleepData_duration (arr : List Bool) (h48 : arr.length = 48) :
    (analyzeSleepData arr).duration = (arr.count true : ℚ) / 2 := by
  by_cases hcount : arr.count true = 0
  · rw [analyzeSleepData_no_sleep arr hcount, hcount]
    simp [emptySleepAnalysis]
  · have hne : sleepPeriods arr ≠ [] := by
      rw [sleepPeriods]
      intro h
      exact rawPeriods_ne_nil arr hcount (List.map_eq_nil_iff.mp h)
    rw [(analyzeSleepData_pos arr h48 hne).1, sleepPeriods, sum_map_duration,
      rawPeriods_sum]

section ConcreteArrays

/-- Asleep exactly on slots 0-13 (00:00 to 07:00). -/
def slots0to13 : List Bool := List.replicate 14 true ++ List.replicate 34 false

/-- Asleep on slots 0-13 and 44-47: the wrap scenario of the spec. -/
def slotsWrap : List Bool :=
  List.replicate 14 true ++ List.replicate 30 false ++ List.replicate 4 true

/-- Asleep the whole day: the main run ends at slot 47, so the wake time is
the rendering of slot 48. -/
def allTrue48 : List Bool := List.replicate 48 true

end ConcreteArrays

/-- C10: for every 48-slot boolean array the total duration returned by
`analyzeSleepData` is half the number of `true` slots, independent of the
run structure, and coincides with the tracker's `calculateSleepDuration`. -/
theorem claim_C10_duration_refinement :
    ∀ arr : List Bool, arr.length = 48 →
      (analyzeSleepData arr).duration = (arr.count true : ℚ) / 2 ∧
      calculateSleepDuration arr = (arr.count true : ℚ) / 2 ∧
      (analyzeSleepData arr).duration = calculateSleepDuration arr := by
  intro arr h48
  have hd := analyzeSleepData_duration arr h48
  have hc : calculateSleepDuration arr = (arr.count true : ℚ) / 2 := by
    rw [calculateSleepDuration]
    have hlen : ¬ arr.length = 0 := by omega
    simp only [hlen, if_false]
    congr 2
    rw [List.count, List.countP_eq_length_filter]
    congr 1
  exact ⟨hd, hc, by rw [hd, hc]⟩

/-- Witness for C10 at the concrete wrap array. -/
theorem claim_C10_duration_refinement_witness :
    slotsWrap.length = 48 ∧
    (analyzeSleepData slotsWrap).duration = calculateSleepDuration slotsWrap := by
  have h48 : slotsWrap.length = 48 := by decide
  exact ⟨h48, (claim_C10_duration_refinement slotsWrap h48).2.2⟩

set_option maxHeartbeats 1000000 in
/-- Evaluation of the analyzer on the 0-13 array. -/
lemma analyzeSleepData_slots0to13_eval :
    (analyzeSleepData slots0to13).bedtime = some "00:00" ∧
    (analyzeSleepData slots0to13).wakeTime = some "07:00" ∧
    (analyzeSleepData slots0to13).duration = 7 := by
  norm_num [analyzeSleepData, slots0to13, sleepPeriods, rawPeriods,
    findPeriodsAux, List.replicate, mainSleepOf, sortedSleepPeriods,
    List.insertionSort, List.orderedInsert, mkPeriod, formatTimeFromSlot,
    pad2, digitStr, emptySleepAnalysis] <;> decide

set_option maxHeartbeats 1000000 in
/-- Evaluation of the analyzer on the wrap array: the 14-slot run 0-13 is
the main sleep, the 4-slot run 44-47 a nap. -/
lemma analyzeSleepData_slotsWrap_eval :
    (analyzeSleepData slotsWrap).bedtime = some "00:00" ∧
    (analyzeSleepData slotsWrap).wakeTime = some "07:00" ∧
    (analyzeSleepData slotsWrap).mainSleepDuration = 7 := by
  norm_num [analyzeSleepData, slotsWrap, sleepPeriods, rawPeriods,
    findPeriodsAux, List.replicate, mainSleepOf, sortedSleepPeriods,
    List.insertionSort, List.orderedInsert, mkPeriod, formatTimeFromSlot,
    pad2, digitStr, emptySleepAnalysis] <;> decide

set_option maxHeartbeats 1000000 in
/-- Evaluation of the analyzer on the all-asleep array. -/
lemma analyzeSleepData_allTrue48_eval :
    (analyzeSleepData allTrue48).wakeTime = some "24:00" := by
  norm_num [analyzeSleepData, allTrue48, sleepPeriods, rawPeriods,
    findPeriodsAux, List.replicate, mainSleepOf, sortedSleepPeriods,
    List.insertionSort, List.orderedInsert, mkPeriod, formatTimeFromSlot,
    pad2, digitStr, emptySleepAnalysis] <;> decide

/-- C1 as amended: the claim fails only in rendering slot 48 as `"00:00"`;
the code renders it `"24:00"` (`HH = floor(48/2) = 24`, no wrap applied).
With that emendation everything else holds: an all-awake array yields the
zeroed result; otherwise the main sleep is a maximal run of largest length,
bedtime is the clock string of its first slot and wake time the clock string
of the slot after its last slot; the concrete 0-13 and wrap arrays behave
as the claim states. -/
theorem claim_C1_sleep_analysis :
    (∀ arr : List Bool, arr.length = 48 → arr.count true = 0 →
        (analyzeSleepData arr).duration = 0 ∧
        (analyzeSleepData arr).bedtime = none ∧
        (analyzeSleepData arr).wakeTime = none ∧
        (analyzeSleepData arr).hasNaps = false) ∧
    (∀ arr : List Bool, arr.length = 48 → arr.count true ≠ 0 →
        ∃ s e, isMaxRun arr s e ∧
          (∀ s' e', isMaxRun arr s' e' → e' + 1 - s' ≤ e + 1 - s) ∧
          (analyzeSleepData arr).bedtime = some (formatTimeFromSlot s) ∧
          (analyzeSleepData arr).wakeTime = some (formatTimeFromSlot (e + 1))) ∧
    ((analyzeSleepData slots0to13).bedtime = some "00:00" ∧
      (analyzeSleepData slots0to13).wakeTime = some "07:00" ∧
      (analyzeSleepData slots0to13).duration = 7) ∧
    ((analyzeSleepData slotsWrap).bedtime = some "00:00" ∧
      (analyzeSleepData slotsWrap).wakeTime = some "07:00" ∧
      (analyzeSleepData slotsWrap).mainSleepDuration = 7) ∧
    formatTimeFromSlot 48 = "24:00" ∧
    (analyzeSleepData allTrue48).wakeTime = some "24:00" := by
  refine ⟨?_, ?_, ?_, ?_, by decide, ?_⟩
  · intro arr h48 hcount
    rw [analyzeSleepData_no_sleep arr hcount]
    exact ⟨rfl, rfl, rfl, rfl⟩
  · intro arr h48 hcount
    have hne : sleepPeriods arr ≠ [] := by
      rw [sleepPeriods]
      intro h
      exact rawPeriods_ne_nil arr hcount (List.map_eq_nil_iff.mp h)
    obtain ⟨-, hbed, hwake, -⟩ := analyzeSleepData_pos arr h48 hne
    have hmem := mainSleepOf_mem arr hne
    rw [sleepPeriods] at hmem
    obtain ⟨p, hp, hpeq⟩ := List.mem_map.mp hmem
    obtain ⟨s, e⟩ := p
    refine ⟨s, e, (rawPeriods_mem arr s e).mp hp, ?_, ?_, ?_⟩
    · intro s' e' hmax'
      have hp' : (s', e') ∈ rawPeriods arr := (rawPeriods_mem arr s' e').mpr hmax'
      have hq : mkPeriod (s', e') ∈ sleepPeriods arr := by
        rw [sleepPeriods]
        exact List.mem_map_of_mem mkPeriod hp'
      have hle := mainSleepOf_max arr (mkPeriod (s', e')) hq
      rw [← hpeq] at hle
      rw [mkPeriod] at hle
      rw [mkPeriod] at hle
      simp only at hle
      have h2 : ((e' + 1 - s' : ℕ) : ℚ) ≤ ((e + 1 - s : ℕ) : ℚ) := by linarith
      exact_mod_cast h2
    · rw [hbed, ← hpeq]
      rfl
    · rw [hwake, ← hpeq]
      rfl
  · exact analyzeSleepData_slots0to13_eval
  · exact analyzeSleepData_slotsWrap_eval
  · exact analyzeSleepData_allTrue48_eval

/-- C1, counterexample to the claim as stated: for the all-asleep array the
main run ends at slot 47, so the claim demands wake time `"00:00"`; the
code renders slot 48 as the clock string `"24:00"`. -/
theorem claim_C1_counterexample :
    isMaxRun allTrue48 0 47 ∧
    (analyzeSleepData allTrue48).wakeTime = some "24:00" ∧
    some "24:00" ≠ some ("00:00" : String) := by
  refine ⟨?_, analyzeSleepData_allTrue48_eval, by decide⟩
  refine ⟨by omega, by decide, ?_, Or.inl rfl, Or.inl (by decide)⟩
  intro k h1 h2
  have hk : k < 48 := by omega
  rw [allTrue48, List.getD_eq_getElem?_getD, List.getElem?_replicate]
  simp only [hk, if_true]
  rfl

/-- Witness for C1: the hypothesised parts applied at concrete arrays. -/
theorem claim_C1_sleep_analysis_witness :
    ((analyzeSleepData (List.replicate 48 false)).duration = 0 ∧
      (analyzeSleepData (List.replicate 48 false)).bedtime = none ∧
      (analyzeSleepData (List.replicate 48 false)).wakeTime = none ∧
      (analyzeSleepData (List.replicate 48 false)).hasNaps = false) ∧
    (∃ s e, isMaxRun slots0to13 s e ∧
      (∀ s' e', isMaxRun slots0to13 s' e' → e' + 1 - s' ≤ e + 1 - s) ∧
      (analyzeSleepData slots0to13).bedtime = some (formatTimeFromSlot s) ∧
      (analyzeSleepData slots0to13).wakeTime = some (formatTimeFromSlot (e + 1))) :=
  ⟨claim_C1_sleep_analysis.1 (List.replicate 48 false) (by decide) (by decide),
   claim_C1_sleep_analysis.2.1 slots0to13 (by decide) (by decide)⟩

section DataModel

/-- A two-sided 1-7 metric (`energy`/`mood`): `{highest, lowest}`. -/
structure MinMax where
  highest : ℚ
  lowest : ℚ
deriving DecidableEq, Repr

/-- A daily entry as the analytics code reads it.  `none` models an absent
JS field (`undefined`); `isMissing` is the gap-filler flag (absent on stored
entries, which JS reads as falsy, hence `false`). -/
structure Entry where
  date : ℤ
  energy : Option MinMax := none
  mood : Option MinMax := none
  anxiety : Option ℚ := none
  irritability : Option ℚ := none
  productivity : Option ℚ := none
  satisfaction : Option ℚ := none
  socialActivity : Option ℚ := none
  caffeine : Option ℚ := none
  sleep : Option (List Bool) := none
  sleepDuration : Option ℚ := none
  isMissing : Bool := false
deriving DecidableEq

end DataModel

section SeriesNormalizer

/-- The baseline object `fillMissingDates` pushes for a missing date. -/
def baselineEntry (date : ℤ) : Entry :=
  { date := date,
    energy := some ⟨4, 4⟩,
    mood := some ⟨4, 4⟩,
    anxiety := some 4,
    irritability := some 4,
    productivity := some 4,
    satisfaction := some 4,
    socialActivity := some 4,
    isMissing := true }

/-- The `dataMap` built by `fillMissingDates`: assignment in a JS object is
last-write-wins, so the lookup returns the last entry with the given date. -/
def dataMapLookup (data : List Entry) (d : ℤ) : Option Entry :=
  (data.filter (fun e => e.date = d)).getLast?

/-- One iteration of the date loop of `fillMissingDates`: if the map holds
an entry for the date push it, else push the baseline entry. -/
def fillEntryFor (data : List Entry) (d : ℤ) : Entry :=
  (dataMapLookup data d).getD (baselineEntry d)

/-- The calendar dates from `s` to `e` inclusive (dates are modelled as day
numbers; `current.setDate(current.getDate() + 1)` is `+ 1`). -/
def dateRangeList (s e : ℤ) : List ℤ :=
  (List.range (e + 1 - s).toNat).map (fun i : ℕ => s + (i : ℤ))

/-- `fillMissingDates(data, startDate, endDate)` of analytics/utils.js. -/
def fillMissingDates (data : List Entry) (startDate endDate : ℤ) : List Entry :=
  (dateRangeList startDate endDate).map (fillEntryFor data)

/-- `daysBetween` of analytics/utils.js: `Math.round(Math.abs(end-start)/day)`,
exact on whole days. -/
def daysBetween (startDate endDate : ℤ) : ℕ := (endDate - startDate).natAbs

lemma dataMapLookup_some {data : List Entry} {d : ℤ} {y : Entry}
    (h : dataMapLookup data d = some y) : y ∈ data ∧ y.date = d := by
  rw [dataMapLookup] at h
  have hmem := List.mem_of_mem_getLast? h
  have h1 := List.mem_filter.mp hmem
  refine ⟨h1.1, by simpa using h1.2⟩

lemma dataMapLookup_none {data : List Entry} {d : ℤ}
    (h : dataMapLookup data d = none) : ∀ y ∈ data, y.date ≠ d := by
  rw [dataMapLookup, List.getLast?_eq_none_iff] at h
  intro y hy hdate
  have : y ∈ List.filter (fun e => e.date = d) data :=
    List.mem_filter.mpr ⟨hy, by simpa using hdate⟩
  rw [h] at this
  exact List.not_mem_nil y this

lemma fillEntryFor_date (data : List Entry) (d : ℤ) :
    (fillEntryFor data d).date = d := by
  cases h : dataMapLookup data d with
  | none => simp [fillEntryFor, h]; rfl
  | some y => simp [fillEntryFor, h, (dataMapLookup_some h).2]

/-- C2: for `s ≤ e` and stored entries (which carry no `isMissing` flag),
`fillMissingDates` returns one entry per calendar date of `[s, e]`
(`daysBetween(s,e)+1` of them, dates strictly ascending and covering exactly
`[s, e]`); a date with a stored entry gets that stored entry (read with
`isMissing` false), a date without one gets the baseline entry with
`isMissing` true and every 1-7 scale field equal to 4. -/
theorem claim_C2_normalizer :
    ∀ (data : List Entry) (s e : ℤ), s ≤ e →
      (∀ x ∈ data, x.isMissing = false) →
      (fillMissingDates data s e).length = daysBetween s e + 1 ∧
      List.Pairwise (· < ·) ((fillMissingDates data s e).map Entry.date) ∧
      (∀ d : ℤ, (∃ x ∈ fillMissingDates data s e, x.date = d) ↔ s ≤ d ∧ d ≤ e) ∧
      (∀ x ∈ fillMissingDates data s e,
        ((∃ y ∈ data, y.date = x.date) → x ∈ data ∧ x.isMissing = false) ∧
        ((¬ ∃ y ∈ data, y.date = x.date) →
          x.isMissing = true ∧ x.energy = some ⟨4, 4⟩ ∧ x.mood = some ⟨4, 4⟩ ∧
          x.anxiety = some 4 ∧ x.irritability = some 4 ∧
          x.productivity = some 4 ∧ x.satisfaction = some 4 ∧
          x.socialActivity = some 4)) := by
  intro data s e hse hstored
  have hlen : (e + 1 - s).toNat = daysBetween s e + 1 := by
    rw [daysBetween]
    omega
  have hdates : (fillMissingDates data s e).map Entry.date = dateRangeList s e := by
    rw [fillMissingDates, List.map_map]
    have h1 : List.map (Entry.date ∘ fillEntryFor data) (dateRangeList s e)
        = List.map id (dateRangeList s e) :=
      List.map_congr_left (fun d _ => fillEntryFor_date data d)
    rw [h1, List.map_id]
  refine ⟨?_, ?_, ?_, ?_⟩
  · rw [fillMissingDates, dateRangeList, List.length_map, List.length_map,
      List.length_range, hlen]
  · rw [hdates, dateRangeList]
    refine List.Pairwise.map _ ?_ (List.pairwise_lt_range (e + 1 - s).toNat)
    intro a b hab
    omega
  · intro d
    constructor
    · rintro ⟨x, hx, rfl⟩
      rw [fillMissingDates] at hx
      obtain ⟨d', hd', rfl⟩ := List.mem_map.mp hx
      rw [dateRangeList] at hd'
      obtain ⟨i, hi, rfl⟩ := List.mem_map.mp hd'
      rw [List.mem_range] at hi
      rw [fillEntryFor_date]
      omega
    · rintro ⟨h1, h2⟩
      refine ⟨fillEntryFor data d, ?_, fillEntryFor_date data d⟩
      rw [fillMissingDates]
      refine List.mem_map_of_mem _ ?_
      rw [dateRangeList]
      refine List.mem_map.mpr ⟨(d - s).toNat, ?_, by omega⟩
      rw [List.mem_range]
      omega
  · intro x hx
    rw [fillMissingDates] at hx
    obtain ⟨d, hd, rfl⟩ := List.mem_map.mp hx
    cases h : dataMapLookup data d with
    | some y =>
      obtain ⟨hy, hydate⟩ := dataMapLookup_some h
      have hfe : fillEntryFor data d = y := by simp [fillEntryFor, h]
      rw [hfe]
      constructor
      · intro _
        exact ⟨hy, hstored y hy⟩
      · intro hno
        exact absurd ⟨y, hy, by rw [hydate]⟩ hno
    | none =>
      have hfe : fillEntryFor data d = baselineEntry d := by simp [fillEntryFor, h]
      rw [hfe]
      constructor
      · rintro ⟨y, hy, hydate⟩
        have hbd : (baselineEntry d).date = d := rfl
        rw [hbd] at hydate
        exact absurd hydate (dataMapLookup_none h y hy)
      · intro _
        exact ⟨rfl, rfl, rfl, rfl, rfl, rfl, rfl, rfl⟩

/-- Sample stored entry for the C2 witness. -/
def sampleStored : Entry :=
  { date := 1, anxiety := some 5, caffeine := some 100 }

/-- Witness for C2 on the range `[0, 2]` with one stored entry at date 1. -/
theorem claim_C2_normalizer_witness :
    ((0 : ℤ) ≤ 2 ∧ ∀ x ∈ [sampleStored], x.isMissing = false) ∧
    ((fillMissingDates [sampleStored] 0 2).length = daysBetween 0 2 + 1 ∧
      List.Pairwise (· < ·) ((fillMissingDates [sampleStored] 0 2).map Entry.date) ∧
      (∀ d : ℤ, (∃ x ∈ fillMissingDates [sampleStored] 0 2, x.date = d) ↔
        0 ≤ d ∧ d ≤ 2) ∧
      (∀ x ∈ fillMissingDates [sampleStored] 0 2,
        ((∃ y ∈ [sampleStored], y.date = x.date) → x ∈ [sampleStored] ∧ x.isMissing = false) ∧
        ((¬ ∃ y ∈ [sampleStored], y.date = x.date) →
          x.isMissing = true ∧ x.energy = some ⟨4, 4⟩ ∧ x.mood = some ⟨4, 4⟩ ∧
          x.anxiety = some 4 ∧ x.irritability = some 4 ∧
          x.productivity = some 4 ∧ x.satisfaction = some 4 ∧
          x.socialActivity = some 4))) :=
  ⟨⟨by norm_num, by intro x hx; rw [List.mem_singleton] at hx; rw [hx]; rfl⟩,
   claim_C2_normalizer [sampleStored] 0 2 (by norm_num)
     (by intro x hx; rw [List.mem_singleton] at hx; rw [hx]; rfl)⟩

end SeriesNormalizer

section Chunking

instance : Inhabited Entry := ⟨{ date := 0 }⟩

/-- The chunking skeleton shared by `_aggregateByDays` and
`_aggregateSleepRaw`: `for (i = 0; i < data.length; i += chunkSize)
chunk = data.slice(i, min(i + chunkSize, data.length))`.  A zero chunk size
never terminates in JS; it yields no chunks here and every claim assumes a
positive chunk size. -/
def chunksOf {α : Type} : ℕ → List α → List (List α)
  | _, [] => []
  | 0, _ :: _ => []
  | m+1, x :: xs =>
    ((x :: xs).take (m+1)) :: chunksOf (m+1) ((x :: xs).drop (m+1))
termination_by n l => l.length
decreasing_by
  simp only [List.drop_succ_cons, List.length_drop, List.length_cons]
  omega

lemma chunksOf_ne_nil {α : Type} :
    ∀ (n : ℕ) (l : List α), ∀ c ∈ chunksOf n l, c ≠ []
  | _, [] => by simp [chunksOf]
  | 0, x :: xs => by simp [chunksOf]
  | m+1, x :: xs => by
    intro c hc
    simp only [chunksOf] at hc
    rcases List.mem_cons.mp hc with hh | ht
    · subst hh
      simp
    · exact chunksOf_ne_nil (m+1) ((x :: xs).drop (m+1)) c ht
termination_by n l => l.length
decreasing_by
  simp only [List.drop_succ_cons, List.length_drop, List.length_cons]
  omega

end Chunking

section ScalarAggregator

/-- The inner `mean` helper of `_aggregateByDays` / `_aggregateByMonth`:
drop `null` values, default to 4 on an empty list, else
`Math.round(sum/len*10)/10`. -/
def chartMean (arr : List (Option ℚ)) : ℚ :=
  let valid := arr.filterMap id
  if valid = [] then 4
  else ((jsRound (valid.sum / valid.length * 10) : ℤ) : ℚ) / 10

/-- One aggregated bucket of `_aggregateByDays`. -/
structure Bucket where
  date : ℤ
  isMissing : Bool
  energy : MinMax
  mood : MinMax
  anxiety : ℚ
  irritability : ℚ
deriving DecidableEq

/-- The body of the `_aggregateByDays` loop for one chunk. -/
def aggChunk (chunk : List Entry) : Bucket :=
  let nonMissing := chunk.filter (fun e => !e.isMissing)
  if nonMissing = [] then
    { date := (chunk.headD default).date, isMissing := true,
      energy := ⟨4, 4⟩, mood := ⟨4, 4⟩, anxiety := 4, irritability := 4 }
  else
    { date := (chunk.headD default).date,
      isMissing := false,
      energy := ⟨chartMean (nonMissing.map (fun e => e.energy.map MinMax.highest)),
                 chartMean (nonMissing.map (fun e => e.energy.map MinMax.lowest))⟩,
      mood := ⟨chartMean (nonMissing.map (fun e => e.mood.map MinMax.highest)),
               chartMean (nonMissing.map (fun e => e.mood.map MinMax.lowest))⟩,
      anxiety := chartMean (nonMissing.map (fun e => e.anxiety)),
      irritability := chartMean (nonMissing.map (fun e => e.irritability)) }

/-- `_aggregateByDays(data, chunkSize)` of analytics/charts.js. -/
def aggregateByDays (data : List Entry) (chunkSize : ℕ) : List Bucket :=
  (chunksOf chunkSize data).map aggChunk

lemma filterMap_id_of_all_isSome (l : List (Option ℚ))
    (h : ∀ x ∈ l, x.isSome) :
    l.filterMap id = l.map (fun o => o.getD 0) := by
  induction l with
  | nil => rfl
  | cons x xs ih =>
    cases x with
    | none =>
      exact absurd (h none (List.mem_cons_self _ _)) (by simp)
    | some v =>
      simp only [List.filterMap_cons, id, List.map_cons, Option.getD_some]
      rw [ih (fun x hx => h x (List.mem_cons_of_mem _ hx))]

/-- `Math.round` agrees with Mathlib's `round` (floor of x + 1/2). -/
lemma jsRound_eq_round (q : ℚ) : jsRound q = round q := by
  rw [jsRound, round_eq]
  rfl

lemma ratFloor_eq_intFloor (q : ℚ) : Rat.floor q = ⌊q⌋ := rfl

/-- `chartMean` over all-present values is the half-up 1-decimal rounding of
the plain mean. -/
lemma chartMean_of_all_isSome (l : List (Option ℚ)) (hne : l ≠ [])
    (h : ∀ x ∈ l, x.isSome) :
    chartMean l
      = ((round ((l.map (fun o => o.getD 0)).sum / l.length * 10) : ℤ) : ℚ) / 10 := by
  rw [chartMean]
  have hv := filterMap_id_of_all_isSome l h
  have hlen : (l.filterMap id).length = l.length := by
    rw [hv, List.length_map]
  have hvne : l.filterMap id ≠ [] := by
    rw [hv]
    intro h0
    exact hne (List.map_eq_nil_iff.mp h0)
  simp only [hvne, if_false, hv, hlen, jsRound_eq_round]
  rw [List.length_map, if_neg (fun h0 => hne (List.map_eq_nil_iff.mp h0))]

end ScalarAggregator

lemma chunksOf_of_le {α : Type} (n : ℕ) (l : List α) (hn : 0 < n)
    (hl : l ≠ []) (hlen : l.length ≤ n) : chunksOf n l = [l] := by
  cases n with
  | zero => omega
  | succ m =>
    cases l with
    | nil => exact absurd rfl hl
    | cons x xs =>
      simp only [chunksOf]
      rw [List.take_of_length_le hlen, List.drop_eq_nil_of_le hlen]
      simp [chunksOf]

/-- Shape of `aggChunk` on a chunk with at least one non-missing member. -/
lemma aggChunk_pos (chunk : List Entry)
    (hne : chunk.filter (fun e => !e.isMissing) ≠ []) :
    aggChunk chunk
      = { date := (chunk.headD default).date,
          isMissing := false,
          energy := ⟨chartMean ((chunk.filter (fun e => !e.isMissing)).map
                       (fun e => e.energy.map MinMax.highest)),
                     chartMean ((chunk.filter (fun e => !e.isMissing)).map
                       (fun e => e.energy.map MinMax.lowest))⟩,
          mood := ⟨chartMean ((chunk.filter (fun e => !e.isMissing)).map
                     (fun e => e.mood.map MinMax.highest)),
                   chartMean ((chunk.filter (fun e => !e.isMissing)).map
                     (fun e => e.mood.map MinMax.lowest))⟩,
          anxiety := chartMean ((chunk.filter (fun e => !e.isMissing)).map
                       (fun e => e.anxiety)),
          irritability := chartMean ((chunk.filter (fun e => !e.isMissing)).map
                            (fun e => e.irritability)) } := by
  simp only [aggChunk]
  rw [if_neg hne]

/-- A `chartMean` input built by mapping an all-present accessor. -/
lemma chartMean_map_accessor (nm : List Entry) (f : Entry → Option ℚ)
    (hne : nm ≠ []) (hall : ∀ e ∈ nm, (f e).isSome) :
    chartMean (nm.map f)
      = ((round ((nm.map (fun e => (f e).getD 0)).sum / nm.length * 10) : ℤ) : ℚ) / 10 := by
  have h1 := chartMean_of_all_isSome (nm.map f)
    (fun h0 => hne (List.map_eq_nil_iff.mp h0))
    (by
      intro x hx
      obtain ⟨e, he, rfl⟩ := List.mem_map.mp hx
      exact hall e he)
  rw [h1, List.map_map, List.length_map]
  rfl

/-- C4: in `_aggregateByDays`, a chunk with at least one non-missing member
yields an `isMissing=false` bucket whose every scalar is the half-up
1-decimal rounding of the mean over the non-missing members only (the
missing members appear in neither numerator nor denominator); a chunk whose
members are all missing yields the single default bucket, `isMissing=true`,
every scalar 4, dated at the chunk's first date. -/
theorem claim_C4_chunk_aggregation :
    ∀ (data : List Entry) (chunkSize : ℕ), 0 < chunkSize →
      ∀ chunk ∈ chunksOf chunkSize data,
        chunk ≠ [] ∧
        (chunk.filter (fun e => !e.isMissing) = [] →
          aggChunk chunk
            = { date := (chunk.headD default).date, isMissing := true,
                energy := ⟨4, 4⟩, mood := ⟨4, 4⟩,
                anxiety := 4, irritability := 4 }) ∧
        (chunk.filter (fun e => !e.isMissing) ≠ [] →
          (∀ e ∈ chunk.filter (fun e => !e.isMissing),
            e.energy.isSome ∧ e.mood.isSome ∧
            e.anxiety.isSome ∧ e.irritability.isSome) →
          (aggChunk chunk).isMissing = false ∧
          (aggChunk chunk).date = (chunk.headD default).date ∧
          (aggChunk chunk).energy.highest
            = ((round (((chunk.filter (fun e => !e.isMissing)).map
                (fun e => (e.energy.map MinMax.highest).getD 0)).sum
                / (chunk.filter (fun e => !e.isMissing)).length * 10) : ℤ) : ℚ) / 10 ∧
          (aggChunk chunk).energy.lowest
            = ((round (((chunk.filter (fun e => !e.isMissing)).map
                (fun e => (e.energy.map MinMax.lowest).getD 0)).sum
                / (chunk.filter (fun e => !e.isMissing)).length * 10) : ℤ) : ℚ) / 10 ∧
          (aggChunk chunk).mood.highest
            = ((round (((chunk.filter (fun e => !e.isMissing)).map
                (fun e => (e.mood.map MinMax.highest).getD 0)).sum
                / (chunk.filter (fun e => !e.isMissing)).length * 10) : ℤ) : ℚ) / 10 ∧
          (aggChunk chunk).mood.lowest
            = ((round (((chunk.filter (fun e => !e.isMissing)).map
                (fun e => (e.mood.map MinMax.lowest).getD 0)).sum
                / (chunk.filter (fun e => !e.isMissing)).length * 10) : ℤ) : ℚ) / 10 ∧
          (aggChunk chunk).anxiety
            = ((round (((chunk.filter (fun e => !e.isMissing)).map
                (fun e => e.anxiety.getD 0)).sum
                / (chunk.filter (fun e => !e.isMissing)).length * 10) : ℤ) : ℚ) / 10 ∧
          (aggChunk chunk).irritability
            = ((round (((chunk.filter (fun e => !e.isMissing)).map
                (fun e => e.irritability.getD 0)).sum
                / (chunk.filter (fun e => !e.isMissing)).length * 10) : ℤ) : ℚ) / 10) := by
  intro data chunkSize hn chunk hchunk
  refine ⟨chunksOf_ne_nil chunkSize data chunk hchunk, ?_, ?_⟩
  · intro hempty
    simp only [aggChunk]
    rw [if_pos hempty]
  · intro hne hfields
    rw [aggChunk_pos chunk hne]
    refine ⟨rfl, rfl, ?_, ?_, ?_, ?_, ?_, ?_⟩
    · exact chartMean_map_accessor _ _ hne (by
        intro e he
        have := (hfields e he).1
        simpa [Option.isSome_map] using this)
    · exact chartMean_map_accessor _ _ hne (by
        intro e he
        have := (hfields e he).1
        simpa [Option.isSome_map] using this)
    · exact chartMean_map_accessor _ _ hne (by
        intro e he
        have := (hfields e he).2.1
        simpa [Option.isSome_map] using this)
    · exact chartMean_map_accessor _ _ hne (by
        intro e he
        have := (hfields e he).2.1
        simpa [Option.isSome_map] using this)
    · exact chartMean_map_accessor _ _ hne (fun e he => (hfields e he).2.2.1)
    · exact chartMean_map_accessor _ _ hne (fun e he => (hfields e he).2.2.2)

/-- A fully-populated stored entry for the C4 witness week. -/
def wkEntry (d : ℤ) (a : ℚ) : Entry :=
  { date := d, energy := some ⟨4, 2⟩, mood := some ⟨5, 3⟩,
    anxiety := some a, irritability := some 2 }

/-- Seven gap-filled days, the last one missing. -/
def sampleWeek : List Entry :=
  [wkEntry 0 1, wkEntry 1 2, wkEntry 2 3, wkEntry 3 4, wkEntry 4 5,
   wkEntry 5 6, baselineEntry 6]

lemma sampleWeek_filter :
    sampleWeek.filter (fun e => !e.isMissing)
      = [wkEntry 0 1, wkEntry 1 2, wkEntry 2 3, wkEntry 3 4, wkEntry 4 5,
         wkEntry 5 6] := by
  simp [sampleWeek, wkEntry, baselineEntry, List.filter]

/-- Witness for C4: one week with one missing day; the bucket is not
missing, the anxiety mean uses denominator 6 (value 3.5), not 7 (which
would round to 3.6). -/
theorem claim_C4_chunk_aggregation_witness :
    (0 < 7 ∧ sampleWeek ∈ chunksOf 7 sampleWeek) ∧
    (aggChunk sampleWeek).isMissing = false ∧
    (aggChunk sampleWeek).anxiety
      = ((round (((sampleWeek.filter (fun e => !e.isMissing)).map
          (fun e => e.anxiety.getD 0)).sum
          / (sampleWeek.filter (fun e => !e.isMissing)).length * 10) : ℤ) : ℚ) / 10 ∧
    (aggChunk sampleWeek).anxiety = 7/2 ∧
    ((7 : ℚ)/2 ≠ 18/5) := by
  have hmem : sampleWeek ∈ chunksOf 7 sampleWeek := by
    rw [chunksOf_of_le 7 sampleWeek (by norm_num)
      (by simp [sampleWeek]) (by simp [sampleWeek])]
    exact List.mem_singleton.mpr rfl
  have hne : sampleWeek.filter (fun e => !e.isMissing) ≠ [] := by
    rw [sampleWeek_filter]
    simp
  have hfields : ∀ e ∈ sampleWeek.filter (fun e => !e.isMissing),
      e.energy.isSome ∧ e.mood.isSome ∧ e.anxiety.isSome ∧
      e.irritability.isSome := by
    rw [sampleWeek_filter]
    intro e he
    fin_cases he <;> simp [wkEntry]
  obtain ⟨-, -, hpos⟩ :=
    claim_C4_chunk_aggregation sampleWeek 7 (by norm_num) sampleWeek hmem
  obtain ⟨hmiss, -, -, -, -, -, hanx, -⟩ := hpos hne hfields
  refine ⟨⟨by norm_num, hmem⟩, hmiss, hanx, ?_, by norm_num⟩
  rw [hanx, sampleWeek_filter]
  have hsum : ([wkEntry 0 1, wkEntry 1 2, wkEntry 2 3, wkEntry 3 4,
      wkEntry 4 5, wkEntry 5 6].map (fun e => e.anxiety.getD 0)).sum = 21 := by
    norm_num [wkEntry]
  rw [hsum]
  norm_num [round_eq]

section SleepAggregator

/-- Digit value of a character (`parseInt` on the clean `HH`/`MM` inputs the
code produces). -/
def charDigit (c : Char) : ℕ :=
  if c = '0' then 0 else if c = '1' then 1 else if c = '2' then 2
  else if c = '3' then 3 else if c = '4' then 4 else if c = '5' then 5
  else if c = '6' then 6 else if c = '7' then 7 else if c = '8' then 8
  else if c = '9' then 9 else 0

/-- JS `String.prototype.split(sep)` for a one-character separator, on the
character list of the string. -/
def splitOnChar (sep : Char) : List Char → List (List Char)
  | [] => [[]]
  | c :: cs =>
    let r := splitOnChar sep cs
    if c = sep then [] :: r
    else
      match r with
      | [] => [[c]]
      | g :: gs => (c :: g) :: gs

/-- `parseInt` on a digit string. -/
def parseNatChars (cs : List Char) : ℕ :=
  cs.foldl (fun acc c => acc * 10 + charDigit c) 0

/-- The local `tMin` of `_aggregateSleepRaw`:
`var p = t.split(':'); return +p[0] * 60 + +p[1];`. -/
def tMin (t : String) : ℚ :=
  match (splitOnChar ':' t.data).map parseNatChars with
  | [h, m] => (h : ℚ) * 60 + (m : ℚ)
  | _ => 0

/-- JS truncation toward zero of a rational. -/
def ratTrunc (q : ℚ) : ℤ :=
  if 0 ≤ q then Rat.floor q else -(Rat.floor (-q))

/-- JS `%` on numbers: `a - b * trunc(a / b)`. -/
def jsModQ (a b : ℚ) : ℚ := a - b * ((ratTrunc (a / b) : ℤ) : ℚ)

/-- The local `tStr` of `_aggregateSleepRaw`:
`var n = ((Math.round(m) % 1440) + 1440) % 1440;` then zero-padded
`HH:MM` from `n/60|0` and `n%60`. -/
def tStr (m : ℚ) : String :=
  let n := (((jsRound m).tmod 1440) + 1440).tmod 1440
  pad2 (n.toNat / 60) ++ ":" ++ pad2 (n.toNat % 60)

/-- One element of the local `entries` of `_aggregateSleepRaw`. -/
structure SleepMemberData where
  dur : ℚ
  bed : ℚ
  wake : ℚ
  hasNaps : Bool
  napCount : ℕ
deriving DecidableEq

/-- The member-collecting inner loop of `_aggregateSleepRaw`: keep
non-missing entries with a sleep array whose analysis has positive
duration. -/
def sleepEntriesOf (chunk : List Entry) : List SleepMemberData :=
  chunk.filterMap (fun e =>
    if e.isMissing then none
    else
      match e.sleep with
      | none => none
      | some arr =>
        let an := analyzeSleepData arr
        if 0 < an.duration then
          some { dur := an.duration,
                 bed := tMin (an.bedtime.getD ""),
                 wake := tMin (an.wakeTime.getD ""),
                 hasNaps := an.hasNaps,
                 napCount := an.napCount }
        else none)

/-- One aggregated sleep bucket of `_aggregateSleepRaw`. -/
structure SleepBucket where
  date : ℤ
  duration : ℚ
  bedtime : String
  wakeTime : String
  hasNaps : Bool
  napCount : ℕ
  bedtimeMinutes : ℚ
  wakeTimeMinutes : ℚ
deriving DecidableEq

/-- The body of the `_aggregateSleepRaw` loop for one chunk: `none` when the
chunk has no valid sleep entry (the JS `continue`). -/
def sleepChunk (chunk : List Entry) : Option SleepBucket :=
  let entries := sleepEntriesOf chunk
  if entries = [] then none
  else
    let avgDur := (entries.map SleepMemberData.dur).sum / entries.length
    let normBed := entries.map (fun e => if e.bed < 360 then e.bed + 1440 else e.bed)
    let avgBed := normBed.sum / normBed.length
    let avgWake := (entries.map SleepMemberData.wake).sum / entries.length
    some { date := (chunk.headD default).date,
           duration := avgDur,
           bedtime := tStr avgBed,
           wakeTime := tStr avgWake,
           hasNaps := entries.any SleepMemberData.hasNaps,
           napCount := (entries.map SleepMemberData.napCount).sum,
           bedtimeMinutes := jsModQ avgBed 1440,
           wakeTimeMinutes := avgWake }

/-- `_aggregateSleepRaw(data, chunkSize)` of analytics/charts.js. -/
def aggregateSleepRaw (data : List Entry) (chunkSize : ℕ) : List SleepBucket :=
  (chunksOf chunkSize data).filterMap sleepChunk

/-- `calculateAverage(values)` of DATA_SCHEMA.md: 0 on empty input, else
the arithmetic mean. -/
def calculateAverage (values : List ℚ) : ℚ :=
  if values.length = 0 then 0 else values.sum / values.length

/-- The spec's circular shift: a bedtime strictly before 06:00 (360 minutes)
is moved to the next day. -/
def circularShift (b : ℚ) : ℚ := if b < 360 then b + 1440 else b

/-- The spec's circular bedtime mean: arithmetic mean of the shifted
bedtimes (reduction modulo 1440 happens at display time). -/
def circularBedtimeMean (bs : List ℚ) : ℚ :=
  (bs.map circularShift).sum / bs.length

/-- The bedtime collection of `calculateSleepInsights`: analyses of valid
entries with positive duration contribute their bedtime string. -/
def insightBedtimes (data : List Entry) : List String :=
  (data.filter (fun e => !e.isMissing && e.sleep.isSome)).filterMap (fun e =>
    match e.sleep with
    | none => none
    | some arr =>
      let an := analyzeSleepData arr
      if 0 < an.duration then an.bedtime else none)

/-- The per-bedtime minute conversion of `calculateSleepInsights`:
`hours*60+minutes`, plus 1440 when `hours < 6`. -/
def bedtimeToMinutesInsight (t : String) : ℚ :=
  match (splitOnChar ':' t.data).map parseNatChars with
  | [h, m] => if h < 6 then ((h : ℚ) * 60 + (m : ℚ)) + 1440
              else (h : ℚ) * 60 + (m : ℚ)
  | _ => 0

/-- The average-bedtime insight line of `calculateSleepInsights`:
`bedHours = floor(avg/60) % 24`, `bedMins = Math.round(avg % 60)`,
both zero-padded. -/
def avgBedtimeInsight (bedtimes : List String) : String :=
  let avg := calculateAverage (bedtimes.map bedtimeToMinutesInsight)
  let bedHours := (Rat.floor (avg / 60)).tmod 24
  let bedMins := jsRound (jsModQ avg 60)
  "Average bedtime: <strong>" ++ pad2 bedHours.toNat ++ ":"
    ++ pad2 bedMins.toNat ++ "</strong>"

end SleepAggregator

section SleepAggregatorConcrete

/-- Asleep slots 46-47: bedtime 23:00, duration 1h. -/
def sleep2300 : List Bool := List.replicate 46 false ++ List.replicate 2 true

/-- Asleep slots 2-13: bedtime 01:00, duration 6h. -/
def sleep0100 : List Bool :=
  List.replicate 2 false ++ List.replicate 12 true ++ List.replicate 34 false

def entryBed2300 : Entry := { date := 0, sleep := some sleep2300 }

def entryBed0100 : Entry := { date := 1, sleep := some sleep0100 }

def twoNights : List Entry := [entryBed2300, entryBed0100]

set_option maxHeartbeats 1000000 in
lemma analyzeSleepData_sleep2300_eval :
    analyzeSleepData sleep2300
      = { duration := 1, bedtime := some "23:00", wakeTime := some "24:00",
          mainSleepDuration := 1, periods := [⟨46, 47, 1⟩], naps := [],
          hasNaps := false, napCount := 0, totalNapDuration := 0 } := by
  norm_num [analyzeSleepData, sleep2300, sleepPeriods, rawPeriods,
    findPeriodsAux, List.replicate, mainSleepOf, sortedSleepPeriods, napsOf,
    List.insertionSort, List.orderedInsert, mkPeriod, formatTimeFromSlot,
    pad2, digitStr, emptySleepAnalysis] <;> decide

set_option maxHeartbeats 1000000 in
lemma analyzeSleepData_sleep0100_eval :
    analyzeSleepData sleep0100
      = { duration := 6, bedtime := some "01:00", wakeTime := some "07:00",
          mainSleepDuration := 6, periods := [⟨2, 13, 6⟩], naps := [],
          hasNaps := false, napCount := 0, totalNapDuration := 0 } := by
  norm_num [analyzeSleepData, sleep0100, sleepPeriods, rawPeriods,
    findPeriodsAux, List.replicate, mainSleepOf, sortedSleepPeriods, napsOf,
    List.insertionSort, List.orderedInsert, mkPeriod, formatTimeFromSlot,
    pad2, digitStr, emptySleepAnalysis] <;> decide

lemma tMin_2300 : tMin "23:00" = 1380 := by
  have h : (splitOnChar ':' "23:00".data).map parseNatChars = [23, 0] := by decide
  simp only [tMin, h]
  norm_num

lemma tMin_0100 : tMin "01:00" = 60 := by
  have h : (splitOnChar ':' "01:00".data).map parseNatChars = [1, 0] := by decide
  simp only [tMin, h]
  norm_num

lemma tMin_2400 : tMin "24:00" = 1440 := by
  have h : (splitOnChar ':' "24:00".data).map parseNatChars = [24, 0] := by decide
  simp only [tMin, h]
  norm_num

lemma tMin_0700 : tMin "07:00" = 420 := by
  have h : (splitOnChar ':' "07:00".data).map parseNatChars = [7, 0] := by decide
  simp only [tMin, h]
  norm_num

lemma sleepEntriesOf_twoNights :
    sleepEntriesOf twoNights
      = [{ dur := 1, bed := 1380, wake := 1440, hasNaps := false, napCount := 0 },
         { dur := 6, bed := 60, wake := 420, hasNaps := false, napCount := 0 }] := by
  rw [sleepEntriesOf, twoNights]
  rw [List.filterMap_cons, List.filterMap_cons, List.filterMap_nil]
  simp only [entryBed2300, entryBed0100, analyzeSleepData_sleep2300_eval,
    analyzeSleepData_sleep0100_eval, tMin_2300, tMin_0100, tMin_2400,
    tMin_0700]
  norm_num
  exact ⟨⟨tMin_2300, tMin_2400⟩, tMin_0100, tMin_0700⟩

lemma ratTrunc_eq (q : ℚ) : ratTrunc q = if 0 ≤ q then ⌊q⌋ else -⌊-q⌋ := rfl

lemma tStr_1440 : tStr 1440 = "00:00" := by
  have hj : jsRound 1440 = 1440 := by
    rw [jsRound_eq_round]
    norm_num [round_eq]
  rw [tStr, hj]
  decide

lemma tStr_930 : tStr 930 = "15:30" := by
  have hj : jsRound 930 = 930 := by
    rw [jsRound_eq_round]
    norm_num [round_eq]
  rw [tStr, hj]
  decide

lemma sleepChunk_twoNights :
    sleepChunk twoNights
      = some { date := 0, duration := 7/2, bedtime := "00:00",
               wakeTime := "15:30", hasNaps := false, napCount := 0,
               bedtimeMinutes := 0, wakeTimeMinutes := 930 } := by
  have hmod : jsModQ 1440 1440 = 0 := by
    rw [jsModQ, ratTrunc_eq]
    norm_num
  rw [sleepChunk, sleepEntriesOf_twoNights]
  norm_num [twoNights, entryBed2300, tStr_1440, tStr_930, hmod]
  intro hcontra
  simp at hcontra

end SleepAggregatorConcrete

lemma circularBedtimeMean_eq (entries : List SleepMemberData) :
    circularBedtimeMean (entries.map SleepMemberData.bed)
      = ((entries.map (fun e => if e.bed < 360 then e.bed + 1440 else e.bed)).sum)
        / ((entries.map (fun e => if e.bed < 360 then e.bed + 1440 else e.bed)).length) := by
  rw [circularBedtimeMean, List.map_map, List.length_map, List.length_map]
  rfl

lemma bedtimeToMinutesInsight_2300 : bedtimeToMinutesInsight "23:00" = 1380 := by
  have h : (splitOnChar ':' "23:00".data).map parseNatChars = [23, 0] := by decide
  simp only [bedtimeToMinutesInsight, h]
  norm_num

lemma bedtimeToMinutesInsight_0100 : bedtimeToMinutesInsight "01:00" = 1500 := by
  have h : (splitOnChar ':' "01:00".data).map parseNatChars = [1, 0] := by decide
  simp only [bedtimeToMinutesInsight, h]
  norm_num

lemma insightBedtimes_twoNights :
    insightBedtimes twoNights = ["23:00", "01:00"] := by
  rw [insightBedtimes, twoNights]
  have hf : ([entryBed2300, entryBed0100].filter
      (fun e => !e.isMissing && e.sleep.isSome)) = [entryBed2300, entryBed0100] := by
    simp [entryBed2300, entryBed0100, List.filter]
  rw [hf, List.filterMap_cons, List.filterMap_cons, List.filterMap_nil]
  simp only [entryBed2300, entryBed0100, analyzeSleepData_sleep2300_eval,
    analyzeSleepData_sleep0100_eval]
  norm_num

lemma avgBedtimeInsight_twoNights :
    avgBedtimeInsight (insightBedtimes twoNights)
      = "Average bedtime: <strong>00:00</strong>" := by
  rw [insightBedtimes_twoNights, avgBedtimeInsight]
  simp only [List.map_cons, List.map_nil, bedtimeToMinutesInsight_2300,
    bedtimeToMinutesInsight_0100]
  have havg : calculateAverage [1380, 1500] = 1440 := by
    rw [calculateAverage]
    norm_num
  rw [havg]
  have hfl : Rat.floor ((1440 : ℚ) / 60) = 24 := by
    rw [show Rat.floor ((1440 : ℚ) / 60) = ⌊(1440 : ℚ) / 60⌋ from rfl]
    norm_num
  have hmod : jsModQ 1440 60 = 0 := by
    rw [jsModQ, ratTrunc_eq]
    norm_num
  have hbm : jsRound (jsModQ 1440 60) = 0 := by
    rw [hmod, jsRound_eq_round]
    norm_num
  rw [hfl, hbm]
  decide

/-- C3: the bucket bedtime of the sleep aggregator is the circular mean:
bedtimes strictly before 06:00 are shifted by +1440 minutes before the
arithmetic mean, and the mean is reduced modulo 1440 for display (both in
the `bedtime` clock string and in `bedtimeMinutes`); concretely, two nights
with bedtimes 23:00 and 01:00 average to 00:00 (not 12:00), through both
`_aggregateSleepRaw` and the `calculateSleepInsights` average-bedtime
line. -/
theorem claim_C3_circular_bedtime :
    (∀ (data : List Entry) (chunkSize : ℕ), 0 < chunkSize →
      ∀ chunk ∈ chunksOf chunkSize data,
        sleepEntriesOf chunk ≠ [] →
        ∃ b, sleepChunk chunk = some b ∧
          b.bedtime = tStr (circularBedtimeMean
            ((sleepEntriesOf chunk).map SleepMemberData.bed)) ∧
          b.bedtimeMinutes = jsModQ (circularBedtimeMean
            ((sleepEntriesOf chunk).map SleepMemberData.bed)) 1440) ∧
    ((aggregateSleepRaw twoNights 7).map SleepBucket.bedtime = ["00:00"] ∧
      (aggregateSleepRaw twoNights 7).map SleepBucket.bedtimeMinutes = [0] ∧
      ("00:00" : String) ≠ "12:00") ∧
    avgBedtimeInsight (insightBedtimes twoNights)
      = "Average bedtime: <strong>00:00</strong>" := by
  refine ⟨?_, ?_, avgBedtimeInsight_twoNights⟩
  · intro data chunkSize hn chunk hchunk hne
    rw [sleepChunk]
    simp only
    rw [if_neg hne]
    refine ⟨_, rfl, ?_, ?_⟩
    · rw [circularBedtimeMean_eq]
    · rw [circularBedtimeMean_eq]
  · have hchunks : chunksOf 7 twoNights = [twoNights] :=
      chunksOf_of_le 7 twoNights (by norm_num) (by simp [twoNights])
        (by simp [twoNights])
    rw [aggregateSleepRaw, hchunks, List.filterMap_cons, List.filterMap_nil,
      sleepChunk_twoNights]
    refine ⟨rfl, rfl, by decide⟩

/-- Witness for C3: the circular-mean characterization applied to the
two-night chunk. -/
theorem claim_C3_circular_bedtime_witness :
    ((0 < 7 ∧ twoNights ∈ chunksOf 7 twoNights) ∧
      sleepEntriesOf twoNights ≠ []) ∧
    (∃ b, sleepChunk twoNights = some b ∧
      b.bedtime = tStr (circularBedtimeMean
        ((sleepEntriesOf twoNights).map SleepMemberData.bed)) ∧
      b.bedtimeMinutes = jsModQ (circularBedtimeMean
        ((sleepEntriesOf twoNights).map SleepMemberData.bed)) 1440) := by
  have hmem : twoNights ∈ chunksOf 7 twoNights := by
    rw [chunksOf_of_le 7 twoNights (by norm_num) (by simp [twoNights])
      (by simp [twoNights])]
    exact List.mem_singleton.mpr rfl
  have hne : sleepEntriesOf twoNights ≠ [] := by
    rw [sleepEntriesOf_twoNights]
    simp
  exact ⟨⟨⟨by norm_num, hmem⟩, hne⟩,
    claim_C3_circular_bedtime.1 twoNights 7 (by norm_num) twoNights hmem hne⟩

section CaffeineImpact

/-- The four comparison metrics of the pattern miner. -/
inductive Metric
  | energy
  | mood
  | anxiety
  | irritability
deriving DecidableEq, Repr

/-- `metric.charAt(0).toUpperCase() + metric.slice(1)`. -/
def metricName : Metric → String
  | .energy => "Energy"
  | .mood => "Mood"
  | .anxiety => "Anxiety"
  | .irritability => "Irritability"

/-- The per-entry metric accessor of the miner:
`(e[metric] && e[metric].highest) || 4` for the two-sided metrics,
`e[metric] || 4` for the one-sided ones. -/
def metricValue (m : Metric) (e : Entry) : ℚ :=
  match m with
  | .energy => jsOr (e.energy.map MinMax.highest) 4
  | .mood => jsOr (e.mood.map MinMax.highest) 4
  | .anxiety => jsOr e.anxiety 4
  | .irritability => jsOr e.irritability 4

/-- One emitted caffeine-impact statement, with the numbers that produced
it (`pct` is the pre-rounding percentage, `avgWithout` the denominator of
the percentage computation). -/
structure CaffeineInsight where
  metric : Metric
  avgWith : ℚ
  avgWithout : ℚ
  diff : ℚ
  pct : ℚ
  pctDisplay : ℤ
  direction : String
  text : String
deriving DecidableEq

/-- `data.filter(e => (e.caffeine || 0) > 0)`. -/
def caffeineGroup (data : List Entry) : List Entry :=
  data.filter (fun e => 0 < jsOr e.caffeine 0)

/-- `data.filter(e => (e.caffeine || 0) === 0)`. -/
def noCaffeineGroup (data : List Entry) : List Entry :=
  data.filter (fun e => jsOr e.caffeine 0 = 0)

/-- The body of the `metrics.forEach` loop of `analyzeCaffeineImpact`. -/
def caffeineMetricInsight (caffeineData noCaffeineData : List Entry)
    (m : Metric) : Option CaffeineInsight :=
  let avgWith := calculateAverage (caffeineData.map (metricValue m))
  let avgWithout := calculateAverage (noCaffeineData.map (metricValue m))
  let diff := avgWith - avgWithout
  let pctDiff := jsToFixed0 (diff / avgWithout * 100)
  if 1/2 ≤ |diff| then
    let direction :=
      if m = Metric.anxiety ∨ m = Metric.irritability then
        (if 0 < diff then "worse" else "better")
      else
        (if 0 < diff then "higher" else "lower")
    some { metric := m, avgWith := avgWith, avgWithout := avgWithout,
           diff := diff, pct := diff / avgWithout * 100,
           pctDisplay := pctDiff, direction := direction,
           text := "<strong>Caffeine impact:</strong> " ++ metricName m
             ++ " is " ++ toString pctDiff.natAbs ++ "% " ++ direction
             ++ " on days with caffeine" }
  else none

/-- `analyzeCaffeineImpact(data)` of DATA_SCHEMA.md. -/
def analyzeCaffeineImpact (data : List Entry) : List CaffeineInsight :=
  if (caffeineGroup data).length < 1 ∨ (noCaffeineGroup data).length < 1 then []
  else
    [Metric.energy, Metric.mood, Metric.anxiety, Metric.irritability].filterMap
      (caffeineMetricInsight (caffeineGroup data) (noCaffeineGroup data))

lemma caffeineMetricInsight_metric {A B : List Entry} {m : Metric}
    {ins : CaffeineInsight} (h : caffeineMetricInsight A B m = some ins) :
    ins.metric = m := by
  rw [caffeineMetricInsight] at h
  simp only at h
  by_cases hc : 1/2 ≤ |calculateAverage (A.map (metricValue m))
      - calculateAverage (B.map (metricValue m))|
  · rw [if_pos hc] at h
    injection h with h'
    rw [← h']
  · rw [if_neg hc] at h
    exact Option.noConfusion h

lemma caffeineMetricInsight_isSome (A B : List Entry) (m : Metric) :
    (caffeineMetricInsight A B m).isSome
      ↔ 1/2 ≤ |calculateAverage (A.map (metricValue m))
          - calculateAverage (B.map (metricValue m))| := by
  rw [caffeineMetricInsight]
  simp only
  by_cases hc : 1/2 ≤ |calculateAverage (A.map (metricValue m))
      - calculateAverage (B.map (metricValue m))|
  · rw [if_pos hc]
    simp only [Option.isSome_some, true_iff]
    exact hc
  · rw [if_neg hc]
    simp only [Option.isSome_none, Bool.false_eq_true, false_iff]
    exact hc

lemma caffeineMetricInsight_fields {A B : List Entry} {m : Metric}
    {ins : CaffeineInsight} (h : caffeineMetricInsight A B m = some ins) :
    ins.avgWith = calculateAverage (A.map (metricValue m)) ∧
    ins.avgWithout = calculateAverage (B.map (metricValue m)) ∧
    ins.pct = (calculateAverage (A.map (metricValue m))
        - calculateAverage (B.map (metricValue m)))
        / calculateAverage (B.map (metricValue m)) * 100 ∧
    ins.direction = (if m = Metric.anxiety ∨ m = Metric.irritability then
        (if 0 < calculateAverage (A.map (metricValue m))
            - calculateAverage (B.map (metricValue m)) then "worse" else "better")
      else
        (if 0 < calculateAverage (A.map (metricValue m))
            - calculateAverage (B.map (metricValue m)) then "higher" else "lower")) := by
  rw [caffeineMetricInsight] at h
  simp only at h
  by_cases hc : 1/2 ≤ |calculateAverage (A.map (metricValue m))
      - calculateAverage (B.map (metricValue m))|
  · rw [if_pos hc] at h
    injection h with h'
    rw [← h']
    exact ⟨rfl, rfl, rfl, rfl⟩
  · rw [if_neg hc] at h
    exact Option.noConfusion h

/-- A caffeinated day with `mood.highest = 6`. -/
def caffE (d : ℤ) : Entry :=
  { date := d, caffeine := some 100, mood := some ⟨6, 4⟩ }

/-- A caffeine-free day with `mood.highest = 4`. -/
def noCaffE (d : ℤ) : Entry :=
  { date := d, mood := some ⟨4, 2⟩ }

def caffSample : List Entry :=
  [caffE 0, caffE 1, caffE 2, noCaffE 3, noCaffE 4, noCaffE 5]

lemma caffeineGroup_caffSample :
    caffeineGroup caffSample = [caffE 0, caffE 1, caffE 2] := by
  norm_num [caffeineGroup, caffSample, caffE, noCaffE, jsOr, List.filter]

lemma noCaffeineGroup_caffSample :
    noCaffeineGroup caffSample = [noCaffE 3, noCaffE 4, noCaffE 5] := by
  norm_num [noCaffeineGroup, caffSample, caffE, noCaffE, jsOr, List.filter]

lemma caffMetric_mood_eval :
    caffeineMetricInsight [caffE 0, caffE 1, caffE 2]
        [noCaffE 3, noCaffE 4, noCaffE 5] Metric.mood
      = some { metric := Metric.mood, avgWith := 6, avgWithout := 4, diff := 2,
               pct := 50, pctDisplay := 50, direction := "higher",
               text := "<strong>Caffeine impact:</strong> Mood is 50% higher on days with caffeine" } := by
  have havgW : calculateAverage
      ([caffE 0, caffE 1, caffE 2].map (metricValue Metric.mood)) = 6 := by
    norm_num [calculateAverage, metricValue, caffE, jsOr]
  have havgWo : calculateAverage
      ([noCaffE 3, noCaffE 4, noCaffE 5].map (metricValue Metric.mood)) = 4 := by
    norm_num [calculateAverage, metricValue, noCaffE, jsOr]
  have h1 : ((6 : ℚ) - 4) / 4 * 100 = 50 := by norm_num
  have h2 : jsToFixed0 50 = 50 := by
    norm_num [jsToFixed0, jsRound, ratFloor_eq_intFloor]
  rw [caffeineMetricInsight]
  simp only [havgW, havgWo, h1, h2]
  rw [if_pos (by norm_num)]
  simp only [metricName]
  norm_num [CaffeineInsight.mk.injEq]
  decide

lemma caffMetric_energy_eval :
    caffeineMetricInsight [caffE 0, caffE 1, caffE 2]
        [noCaffE 3, noCaffE 4, noCaffE 5] Metric.energy = none := by
  have havgW : calculateAverage
      ([caffE 0, caffE 1, caffE 2].map (metricValue Metric.energy)) = 4 := by
    norm_num [calculateAverage, metricValue, caffE, jsOr]
  have havgWo : calculateAverage
      ([noCaffE 3, noCaffE 4, noCaffE 5].map (metricValue Metric.energy)) = 4 := by
    norm_num [calculateAverage, metricValue, noCaffE, jsOr]
  rw [caffeineMetricInsight]
  simp only [havgW, havgWo]
  rw [if_neg (by norm_num)]

lemma caffMetric_anxiety_eval :
    caffeineMetricInsight [caffE 0, caffE 1, caffE 2]
        [noCaffE 3, noCaffE 4, noCaffE 5] Metric.anxiety = none := by
  have havgW : calculateAverage
      ([caffE 0, caffE 1, caffE 2].map (metricValue Metric.anxiety)) = 4 := by
    norm_num [calculateAverage, metricValue, caffE, jsOr]
  have havgWo : calculateAverage
      ([noCaffE 3, noCaffE 4, noCaffE 5].map (metricValue Metric.anxiety)) = 4 := by
    norm_num [calculateAverage, metricValue, noCaffE, jsOr]
  rw [caffeineMetricInsight]
  simp only [havgW, havgWo]
  rw [if_neg (by norm_num)]

lemma caffMetric_irritability_eval :
    caffeineMetricInsight [caffE 0, caffE 1, caffE 2]
        [noCaffE 3, noCaffE 4, noCaffE 5] Metric.irritability = none := by
  have havgW : calculateAverage
      ([caffE 0, caffE 1, caffE 2].map (metricValue Metric.irritability)) = 4 := by
    norm_num [calculateAverage, metricValue, caffE, jsOr]
  have havgWo : calculateAverage
      ([noCaffE 3, noCaffE 4, noCaffE 5].map (metricValue Metric.irritability)) = 4 := by
    norm_num [calculateAverage, metricValue, noCaffE, jsOr]
  rw [caffeineMetricInsight]
  simp only [havgW, havgWo]
  rw [if_neg (by norm_num)]

lemma analyzeCaffeineImpact_caffSample :
    analyzeCaffeineImpact caffSample
      = [{ metric := Metric.mood, avgWith := 6, avgWithout := 4, diff := 2,
           pct := 50, pctDisplay := 50, direction := "higher",
           text := "<strong>Caffeine impact:</strong> Mood is 50% higher on days with caffeine" }] := by
  rw [analyzeCaffeineImpact, caffeineGroup_caffSample, noCaffeineGroup_caffSample]
  rw [if_neg (by norm_num)]
  simp only [List.filterMap_cons, List.filterMap_nil, caffMetric_energy_eval,
    caffMetric_mood_eval, caffMetric_anxiety_eval, caffMetric_irritability_eval]

/-- C5: the caffeine miner partitions by caffeine>0 vs caffeine=0, returns
nothing when either group is empty, and otherwise emits a statement for a
metric exactly when the absolute mean difference reaches 0.5, with
percentage `diff/meanB*100` and the direction vocabulary flipped to
worse/better for anxiety and irritability; three caffeinated entries with
mood.highest 6 against three caffeine-free ones with mood.highest 4 yield
exactly the "Mood is 50% higher" statement. -/
theorem claim_C5_caffeine_impact :
    (∀ data : List Entry,
      caffeineGroup data = [] ∨ noCaffeineGroup data = [] →
      analyzeCaffeineImpact data = []) ∧
    (∀ (data : List Entry) (m : Metric),
      caffeineGroup data ≠ [] → noCaffeineGroup data ≠ [] →
      (((∃ ins ∈ analyzeCaffeineImpact data, ins.metric = m) ↔
        1/2 ≤ |calculateAverage ((caffeineGroup data).map (metricValue m))
            - calculateAverage ((noCaffeineGroup data).map (metricValue m))|) ∧
      (∀ ins ∈ analyzeCaffeineImpact data, ins.metric = m →
        ins.pct = (calculateAverage ((caffeineGroup data).map (metricValue m))
            - calculateAverage ((noCaffeineGroup data).map (metricValue m)))
            / calculateAverage ((noCaffeineGroup data).map (metricValue m)) * 100 ∧
        ins.direction = (if m = Metric.anxiety ∨ m = Metric.irritability then
            (if 0 < calculateAverage ((caffeineGroup data).map (metricValue m))
                - calculateAverage ((noCaffeineGroup data).map (metricValue m))
             then "worse" else "better")
          else
            (if 0 < calculateAverage ((caffeineGroup data).map (metricValue m))
                - calculateAverage ((noCaffeineGroup data).map (metricValue m))
             then "higher" else "lower"))))) ∧
    analyzeCaffeineImpact caffSample
      = [{ metric := Metric.mood, avgWith := 6, avgWithout := 4, diff := 2,
           pct := 50, pctDisplay := 50, direction := "higher",
           text := "<strong>Caffeine impact:</strong> Mood is 50% higher on days with caffeine" }] := by
  refine ⟨?_, ?_, analyzeCaffeineImpact_caffSample⟩
  · intro data hempty
    rw [analyzeCaffeineImpact, if_pos]
    rcases hempty with h | h
    · left
      rw [h]
      simp
    · right
      rw [h]
      simp
  · intro data m hA hB
    have hcond : ¬((caffeineGroup data).length < 1 ∨ (noCaffeineGroup data).length < 1) := by
      push_neg
      constructor
      · have := List.length_pos.mpr hA
        omega
      · have := List.length_pos.mpr hB
        omega
    constructor
    · constructor
      · rintro ⟨ins, hins, hm⟩
        rw [analyzeCaffeineImpact, if_neg hcond] at hins
        obtain ⟨m', hm', hf⟩ := List.mem_filterMap.mp hins
        have := caffeineMetricInsight_metric hf
        rw [hm] at this
        subst this
        rw [← caffeineMetricInsight_isSome (caffeineGroup data) (noCaffeineGroup data) m]
        rw [hf]
        rfl
      · intro hthr
        have hsome := (caffeineMetricInsight_isSome (caffeineGroup data)
          (noCaffeineGroup data) m).mpr hthr
        obtain ⟨ins, hins⟩ := Option.isSome_iff_exists.mp hsome
        refine ⟨ins, ?_, caffeineMetricInsight_metric hins⟩
        rw [analyzeCaffeineImpact, if_neg hcond]
        refine List.mem_filterMap.mpr ⟨m, ?_, hins⟩
        cases m <;> simp
    · intro ins hins hm
      rw [analyzeCaffeineImpact, if_neg hcond] at hins
      obtain ⟨m', hm', hf⟩ := List.mem_filterMap.mp hins
      have hmm := caffeineMetricInsight_metric hf
      rw [hm] at hmm
      subst hmm
      obtain ⟨-, -, hp, hd⟩ := caffeineMetricInsight_fields hf
      exact ⟨hp, hd⟩

end CaffeineImpact

section CaffeineConcrete

/-- Witness for C5: the emission characterization and the numbers at the
3-versus-3 mood sample. -/
theorem claim_C5_caffeine_impact_witness :
    (caffeineGroup caffSample ≠ [] ∧ noCaffeineGroup caffSample ≠ []) ∧
    (((∃ ins ∈ analyzeCaffeineImpact caffSample, ins.metric = Metric.mood) ↔
      1/2 ≤ |calculateAverage ((caffeineGroup caffSample).map (metricValue Metric.mood))
          - calculateAverage ((noCaffeineGroup caffSample).map (metricValue Metric.mood))|) ∧
    (∀ ins ∈ analyzeCaffeineImpact caffSample, ins.metric = Metric.mood →
      ins.pct = (calculateAverage ((caffeineGroup caffSample).map (metricValue Metric.mood))
          - calculateAverage ((noCaffeineGroup caffSample).map (metricValue Metric.mood)))
          / calculateAverage ((noCaffeineGroup caffSample).map (metricValue Metric.mood)) * 100 ∧
      ins.direction = (if Metric.mood = Metric.anxiety ∨ Metric.mood = Metric.irritability then
          (if 0 < calculateAverage ((caffeineGroup caffSample).map (metricValue Metric.mood))
              - calculateAverage ((noCaffeineGroup caffSample).map (metricValue Metric.mood))
           then "worse" else "better")
        else
          (if 0 < calculateAverage ((caffeineGroup caffSample).map (metricValue Metric.mood))
              - calculateAverage ((noCaffeineGroup caffSample).map (metricValue Metric.mood))
           then "higher" else "lower")))) ∧
    analyzeCaffeineImpact caffSample
      = [{ metric := Metric.mood, avgWith := 6, avgWithout := 4, diff := 2,
           pct := 50, pctDisplay := 50, direction := "higher",
           text := "<strong>Caffeine impact:</strong> Mood is 50% higher on days with caffeine" }] := by
  have hA : caffeineGroup caffSample ≠ [] := by
    rw [caffeineGroup_caffSample]
    simp
  have hB : noCaffeineGroup caffSample ≠ [] := by
    rw [noCaffeineGroup_caffSample]
    simp
  exact ⟨⟨hA, hB⟩,
    claim_C5_caffeine_impact.2.1 caffSample Metric.mood hA hB,
    analyzeCaffeineImpact_caffSample⟩

end CaffeineConcrete

section SortHelpers

lemma insertionSort_headD_rel {α : Type} (r : α → α → Prop) [DecidableRel r]
    [IsTotal α r] [IsTrans α r] (l : List α) (d : α) (hl : l ≠ []) :
    ∀ a ∈ l, r ((List.insertionSort r l).headD d) a := by
  intro a ha
  have hperm := List.perm_insertionSort r l
  have hsorted := List.sorted_insertionSort r l
  have hmem : a ∈ List.insertionSort r l := hperm.mem_iff.mpr ha
  cases hs : List.insertionSort r l with
  | nil =>
    rw [hs] at hmem
    exact absurd hmem (List.not_mem_nil a)
  | cons b t =>
    rw [hs] at hmem hsorted
    simp only [List.headD_cons]
    rcases List.mem_cons.mp hmem with h | h
    · subst h
      rcases IsTotal.total (r := r) a a with h | h
      · exact h
      · exact h
    · exact (List.sorted_cons.mp hsorted).1 a h

lemma sorted_getLastD_rel {α : Type} (r : α → α → Prop) :
    ∀ (l : List α) (d : α), l.Sorted r → (∀ x, r x x) → ∀ a ∈ l, r a (l.getLastD d)
  | [], _, _, _ => by simp
  | [x], d, _, hrefl => by
    intro a ha
    rw [List.mem_singleton] at ha
    subst ha
    exact hrefl a
  | x :: y :: t, d, hsorted, hrefl => by
    intro a ha
    have htail := (List.sorted_cons.mp hsorted).2
    have hlast : (x :: y :: t).getLastD d = (y :: t).getLastD d := by
      simp [List.getLastD]
    rw [hlast]
    rcases List.mem_cons.mp ha with h | h
    · subst h
      have hmem : (y :: t).getLastD d ∈ y :: t := by
        rw [List.getLastD_eq_getLast?, List.getLast?_eq_getLast (y :: t) (by simp)]
        simp only [Option.getD_some]
        exact List.getLast_mem _
      exact (List.sorted_cons.mp hsorted).1 _ hmem
    · exact sorted_getLastD_rel r (y :: t) d htail hrefl a h

lemma insertionSort_getLastD_rel {α : Type} (r : α → α → Prop) [DecidableRel r]
    [IsTotal α r] [IsTrans α r] (l : List α) (d : α) :
    ∀ a ∈ l, r a ((List.insertionSort r l).getLastD d) := by
  intro a ha
  have hperm := List.perm_insertionSort r l
  have hsorted := List.sorted_insertionSort r l
  have hmem : a ∈ List.insertionSort r l := hperm.mem_iff.mpr ha
  refine sorted_getLastD_rel r _ d hsorted ?_ a hmem
  intro x
  rcases IsTotal.total (r := r) x x with h | h
  · exact h
  · exact h

lemma insertionSort_headD_mem {α : Type} (r : α → α → Prop) [DecidableRel r]
    (l : List α) (d : α) (hl : l ≠ []) :
    (List.insertionSort r l).headD d ∈ l := by
  have hperm := List.perm_insertionSort r l
  have hne : List.insertionSort r l ≠ [] := by
    intro h0
    rw [h0] at hperm
    exact hl hperm.symm.eq_nil
  cases hs : List.insertionSort r l with
  | nil => exact absurd hs hne
  | cons b t =>
    rw [hs] at hperm
    simp only [List.headD_cons]
    exact hperm.mem_iff.mp (List.mem_cons_self b t)

lemma insertionSort_getLastD_mem {α : Type} (r : α → α → Prop) [DecidableRel r]
    (l : List α) (d : α) (hl : l ≠ []) :
    (List.insertionSort r l).getLastD d ∈ l := by
  have hperm := List.perm_insertionSort r l
  have hne : List.insertionSort r l ≠ [] := by
    intro h0
    rw [h0] at hperm
    exact hl hperm.symm.eq_nil
  have hmem : (List.insertionSort r l).getLastD d ∈ List.insertionSort r l := by
    rw [List.getLastD_eq_getLast?, List.getLast?_eq_getLast _ hne]
    simp only [Option.getD_some]
    exact List.getLast_mem _
  exact hperm.mem_iff.mp hmem

end SortHelpers

section SleepImpact

/-- `e.sleepDuration` read as a number (always present on the entries the
functions below touch). -/
def sleepDurOf (e : Entry) : ℚ := e.sleepDuration.getD 0

/-- `data.filter(e => e.sleepDuration !== undefined && e.sleepDuration !== null)`. -/
def sleepValidOf (data : List Entry) : List Entry :=
  data.filter (fun e => e.sleepDuration.isSome)

/-- `sleepData.filter(e => e.sleepDuration >= 0 && e.sleepDuration <= 4)`. -/
def littleSleepOf (data : List Entry) : List Entry :=
  (sleepValidOf data).filter (fun e => 0 ≤ sleepDurOf e ∧ sleepDurOf e ≤ 4)

/-- `sleepData.filter(e => e.sleepDuration >= 5 && e.sleepDuration <= 8)`. -/
def averageSleepOf (data : List Entry) : List Entry :=
  (sleepValidOf data).filter (fun e => 5 ≤ sleepDurOf e ∧ sleepDurOf e ≤ 8)

/-- `sleepData.filter(e => e.sleepDuration > 8)`. -/
def lotsSleepOf (data : List Entry) : List Entry :=
  (sleepValidOf data).filter (fun e => 8 < sleepDurOf e)

/-- One element of the local `groups`. -/
structure SleepGroup where
  data : List Entry
  label : String

/-- One element of the local `groupAverages`. -/
structure GroupAvg where
  label : String
  avg : ℚ
deriving DecidableEq

/-- The `groups` list: present (non-empty) buckets in fixed order. -/
def sleepGroupsOf (data : List Entry) : List SleepGroup :=
  (if (littleSleepOf data).length < 1 then []
   else [⟨littleSleepOf data, "little sleep (0-4h)"⟩]) ++
  (if (averageSleepOf data).length < 1 then []
   else [⟨averageSleepOf data, "average sleep (5-8h)"⟩]) ++
  (if (lotsSleepOf data).length < 1 then []
   else [⟨lotsSleepOf data, "lots of sleep (8+h)"⟩])

/-- The sort comparator on group averages: ascending average for
anxiety/irritability (lower is better), descending otherwise. -/
def gaCmp (m : Metric) (a b : GroupAvg) : Prop :=
  if m = Metric.anxiety ∨ m = Metric.irritability then a.avg ≤ b.avg
  else b.avg ≤ a.avg

instance gaCmpDecidable (m : Metric) : DecidableRel (gaCmp m) := fun a b =>
  inferInstanceAs (Decidable
    (if m = Metric.anxiety ∨ m = Metric.irritability then a.avg ≤ b.avg
     else b.avg ≤ a.avg))

instance gaCmpTotal (m : Metric) : IsTotal GroupAvg (gaCmp m) := by
  constructor
  intro a b
  rw [gaCmp, gaCmp]
  by_cases h : m = Metric.anxiety ∨ m = Metric.irritability
  · rw [if_pos h, if_pos h]
    exact le_total _ _
  · rw [if_neg h, if_neg h]
    exact le_total _ _

instance gaCmpTrans (m : Metric) : IsTrans GroupAvg (gaCmp m) := by
  constructor
  intro a b c hab hbc
  rw [gaCmp] at hab hbc ⊢
  by_cases h : m = Metric.anxiety ∨ m = Metric.irritability
  · rw [if_pos h] at hab hbc ⊢
    exact le_trans hab hbc
  · rw [if_neg h] at hab hbc ⊢
    exact le_trans hbc hab

/-- The per-metric `groupAverages`. -/
def groupAveragesOf (data : List Entry) (m : Metric) : List GroupAvg :=
  (sleepGroupsOf data).map
    (fun g => ⟨g.label, calculateAverage (g.data.map (metricValue m))⟩)

/-- `groupAverages.sort(...)`: stable sort by favorability. -/
def sortedGroupAveragesOf (data : List Entry) (m : Metric) : List GroupAvg :=
  List.insertionSort (gaCmp m) (groupAveragesOf data m)

/-- One emitted sleep-impact statement: `worst = some w` is the
best-versus-worst comparison, `worst = none` the single-bucket average. -/
structure SleepInsight where
  metric : Metric
  best : GroupAvg
  worst : Option GroupAvg
deriving DecidableEq

/-- The body of the `metrics.forEach` loop of `analyzeSleepImpact`. -/
def sleepMetricInsight (data : List Entry) (m : Metric) : Option SleepInsight :=
  if (sleepGroupsOf data).length < 1 then none
  else
    let sorted := sortedGroupAveragesOf data m
    let best := sorted.headD ⟨"", 0⟩
    if 2 ≤ sorted.length then
      let worst := sorted.getLastD ⟨"", 0⟩
      if 3/10 ≤ |best.avg - worst.avg| then some ⟨m, best, some worst⟩
      else none
    else some ⟨m, best, none⟩

/-- `analyzeSleepImpact(data)` of DATA_SCHEMA.md (insights as structured
records). -/
def analyzeSleepImpact (data : List Entry) : List SleepInsight :=
  if (sleepValidOf data).length < 1 then []
  else if (littleSleepOf data).length < 1 ∧ (averageSleepOf data).length < 1 ∧
      (lotsSleepOf data).length < 1 then []
  else
    [Metric.energy, Metric.mood, Metric.anxiety, Metric.irritability].filterMap
      (sleepMetricInsight data)

end SleepImpact

section SleepImpactLemmas

lemma analyzeSleepImpact_eq (data : List Entry) (hg : sleepGroupsOf data ≠ []) :
    analyzeSleepImpact data
      = [Metric.energy, Metric.mood, Metric.anxiety, Metric.irritability].filterMap
          (sleepMetricInsight data) := by
  have hnotall : ¬((littleSleepOf data).length < 1 ∧
      (averageSleepOf data).length < 1 ∧ (lotsSleepOf data).length < 1) := by
    rintro ⟨h1, h2, h3⟩
    apply hg
    rw [sleepGroupsOf, if_pos h1, if_pos h2, if_pos h3]
    rfl
  have hvalid : ¬((sleepValidOf data).length < 1) := by
    intro hv
    have hval : sleepValidOf data = [] := by
      rw [← List.length_eq_zero]
      omega
    apply hnotall
    rw [littleSleepOf, averageSleepOf, lotsSleepOf, hval]
    simp
  rw [analyzeSleepImpact, if_neg hvalid, if_neg hnotall]

lemma mem_analyzeSleepImpact {data : List Entry} {ins : SleepInsight}
    (hg : sleepGroupsOf data ≠ []) :
    ins ∈ analyzeSleepImpact data ↔ ∃ m, sleepMetricInsight data m = some ins := by
  rw [analyzeSleepImpact_eq data hg, List.mem_filterMap]
  constructor
  · rintro ⟨m, -, h⟩
    exact ⟨m, h⟩
  · rintro ⟨m, h⟩
    refine ⟨m, ?_, h⟩
    cases m <;> simp

lemma sortedGroupAveragesOf_length (data : List Entry) (m : Metric) :
    (sortedGroupAveragesOf data m).length = (sleepGroupsOf data).length := by
  rw [sortedGroupAveragesOf, (List.perm_insertionSort _ _).length_eq,
    groupAveragesOf, List.length_map]

lemma groupAveragesOf_ne_nil {data : List Entry} (hg : sleepGroupsOf data ≠ [])
    (m : Metric) : groupAveragesOf data m ≠ [] := by
  rw [groupAveragesOf]
  intro h0
  exact hg (List.map_eq_nil_iff.mp h0)

lemma sleepMetricInsight_metric {data : List Entry} {m : Metric}
    {ins : SleepInsight} (h : sleepMetricInsight data m = some ins) :
    ins.metric = m := by
  rw [sleepMetricInsight] at h
  by_cases h1 : (sleepGroupsOf data).length < 1
  · rw [if_pos h1] at h
    exact Option.noConfusion h
  · rw [if_neg h1] at h
    simp only at h
    by_cases h2 : 2 ≤ (sortedGroupAveragesOf data m).length
    · rw [if_pos h2] at h
      by_cases h3 : 3/10 ≤ |((sortedGroupAveragesOf data m).headD ⟨"", 0⟩).avg
          - ((sortedGroupAveragesOf data m).getLastD ⟨"", 0⟩).avg|
      · rw [if_pos h3] at h
        injection h with h'
        rw [← h']
      · rw [if_neg h3] at h
        exact Option.noConfusion h
    · rw [if_neg h2] at h
      injection h with h'
      rw [← h']

lemma sleepMetricInsight_fields {data : List Entry} {m : Metric}
    {ins : SleepInsight} (h : sleepMetricInsight data m = some ins) :
    ins.best = (sortedGroupAveragesOf data m).headD ⟨"", 0⟩ ∧
    (∀ w, ins.worst = some w →
      w = (sortedGroupAveragesOf data m).getLastD ⟨"", 0⟩ ∧
      3/10 ≤ |ins.best.avg - w.avg|) := by
  rw [sleepMetricInsight] at h
  by_cases h1 : (sleepGroupsOf data).length < 1
  · rw [if_pos h1] at h
    exact Option.noConfusion h
  · rw [if_neg h1] at h
    simp only at h
    by_cases h2 : 2 ≤ (sortedGroupAveragesOf data m).length
    · rw [if_pos h2] at h
      by_cases h3 : 3/10 ≤ |((sortedGroupAveragesOf data m).headD ⟨"", 0⟩).avg
          - ((sortedGroupAveragesOf data m).getLastD ⟨"", 0⟩).avg|
      · rw [if_pos h3] at h
        injection h with h'
        rw [← h']
        refine ⟨rfl, ?_⟩
        intro w hw
        injection hw with hw'
        rw [← hw']
        exact ⟨rfl, h3⟩
      · rw [if_neg h3] at h
        exact Option.noConfusion h
    · rw [if_neg h2] at h
      injection h with h'
      rw [← h']
      refine ⟨rfl, ?_⟩
      intro w hw
      exact Option.noConfusion hw

end SleepImpactLemmas

/-- C6 as amended: the three buckets are `[0,4]`, `[5,8]` and `(8,∞)`, so an
entry whose total sleep duration lies strictly between 4 and 5 hours (a
value the slot analyzer produces, e.g. 4.5) belongs to no bucket — the
claim's "every entry to exactly one bucket" fails there and only there for
non-negative durations.  The reporting logic holds as claimed: every
emitted insight's best bucket is most favorable (`gaCmp`: ascending mean
for anxiety/irritability, descending otherwise) among the non-empty
buckets and its worst least favorable; with at least 2 non-empty buckets a
best-versus-worst statement is emitted exactly when the gap reaches 0.3;
with exactly one, the single-bucket average statement is emitted. -/
theorem claim_C6_sleep_impact :
    (∀ (data : List Entry) (e : Entry), e ∈ sleepValidOf data →
      ((e ∈ littleSleepOf data ↔ 0 ≤ sleepDurOf e ∧ sleepDurOf e ≤ 4) ∧
       (e ∈ averageSleepOf data ↔ 5 ≤ sleepDurOf e ∧ sleepDurOf e ≤ 8) ∧
       (e ∈ lotsSleepOf data ↔ 8 < sleepDurOf e) ∧
       (4 < sleepDurOf e → sleepDurOf e < 5 →
         e ∉ littleSleepOf data ∧ e ∉ averageSleepOf data ∧
         e ∉ lotsSleepOf data))) ∧
    (∀ (data : List Entry) (m : Metric), sleepGroupsOf data ≠ [] →
      (∀ ins ∈ analyzeSleepImpact data, ins.metric = m →
        (ins.best ∈ groupAveragesOf data m ∧
         (∀ g ∈ groupAveragesOf data m, gaCmp m ins.best g) ∧
         (∀ w, ins.worst = some w →
           w ∈ groupAveragesOf data m ∧
           (∀ g ∈ groupAveragesOf data m, gaCmp m g w) ∧
           3/10 ≤ |ins.best.avg - w.avg|))) ∧
      (2 ≤ (sleepGroupsOf data).length →
        ((∃ ins ∈ analyzeSleepImpact data, ins.metric = m ∧ ins.worst.isSome) ↔
          3/10 ≤ |((sortedGroupAveragesOf data m).headD ⟨"", 0⟩).avg
              - ((sortedGroupAveragesOf data m).getLastD ⟨"", 0⟩).avg|)) ∧
      ((sleepGroupsOf data).length = 1 →
        ∃ ins ∈ analyzeSleepImpact data, ins.metric = m ∧ ins.worst = none)) := by
  constructor
  · intro data e he
    have h1 : e ∈ littleSleepOf data ↔ 0 ≤ sleepDurOf e ∧ sleepDurOf e ≤ 4 := by
      rw [littleSleepOf, List.mem_filter]
      simp [he]
    have h2 : e ∈ averageSleepOf data ↔ 5 ≤ sleepDurOf e ∧ sleepDurOf e ≤ 8 := by
      rw [averageSleepOf, List.mem_filter]
      simp [he]
    have h3 : e ∈ lotsSleepOf data ↔ 8 < sleepDurOf e := by
      rw [lotsSleepOf, List.mem_filter]
      simp [he]
    refine ⟨h1, h2, h3, ?_⟩
    intro h4 h5
    refine ⟨?_, ?_, ?_⟩
    · rw [h1]
      rintro ⟨-, hle⟩
      linarith
    · rw [h2]
      rintro ⟨hge, -⟩
      linarith
    · rw [h3]
      intro hgt
      linarith
  · intro data m hg
    have hGA := groupAveragesOf_ne_nil hg m
    refine ⟨?_, ?_, ?_⟩
    · intro ins hins hm
      obtain ⟨m', hf⟩ := (mem_analyzeSleepImpact hg).mp hins
      have hmm := sleepMetricInsight_metric hf
      rw [hm] at hmm
      subst hmm
      obtain ⟨hbest, hworst⟩ := sleepMetricInsight_fields hf
      refine ⟨?_, ?_, ?_⟩
      · rw [hbest, sortedGroupAveragesOf]
        exact insertionSort_headD_mem (gaCmp m) _ _ hGA
      · intro g hgmem
        rw [hbest, sortedGroupAveragesOf]
        exact insertionSort_headD_rel (gaCmp m) _ _ hGA g hgmem
      · intro w hw
        obtain ⟨hweq, hthr⟩ := hworst w hw
        refine ⟨?_, ?_, hthr⟩
        · rw [hweq, sortedGroupAveragesOf]
          exact insertionSort_getLastD_mem (gaCmp m) _ _ hGA
        · intro g hgmem
          rw [hweq, sortedGroupAveragesOf]
          exact insertionSort_getLastD_rel (gaCmp m) _ _ g hgmem
    · intro h2g
      have h2s : 2 ≤ (sortedGroupAveragesOf data m).length := by
        rw [sortedGroupAveragesOf_length]
        exact h2g
      have hglen : ¬((sleepGroupsOf data).length < 1) := by
        have := List.length_pos.mpr hg
        omega
      constructor
      · rintro ⟨ins, hins, hm, hws⟩
        obtain ⟨m', hf⟩ := (mem_analyzeSleepImpact hg).mp hins
        have hmm := sleepMetricInsight_metric hf
        rw [hm] at hmm
        subst hmm
        obtain ⟨hbest, hworst⟩ := sleepMetricInsight_fields hf
        obtain ⟨w, hw⟩ := Option.isSome_iff_exists.mp hws
        obtain ⟨hweq, hthr⟩ := hworst w hw
        rw [← hbest, ← hweq]
        exact hthr
      · intro hthr
        refine ⟨⟨m, (sortedGroupAveragesOf data m).headD ⟨"", 0⟩,
          some ((sortedGroupAveragesOf data m).getLastD ⟨"", 0⟩)⟩, ?_, rfl, rfl⟩
        rw [mem_analyzeSleepImpact hg]
        refine ⟨m, ?_⟩
        rw [sleepMetricInsight, if_neg hglen]
        simp only
        rw [if_pos h2s, if_pos hthr]
    · intro h1g
      have h1s : (sortedGroupAveragesOf data m).length = 1 := by
        rw [sortedGroupAveragesOf_length]
        exact h1g
      have hglen : ¬((sleepGroupsOf data).length < 1) := by
        omega
      refine ⟨⟨m, (sortedGroupAveragesOf data m).headD ⟨"", 0⟩, none⟩, ?_, rfl, rfl⟩
      rw [mem_analyzeSleepImpact hg]
      refine ⟨m, ?_⟩
      rw [sleepMetricInsight, if_neg hglen]
      simp only
      rw [if_neg (by omega)]

/-- The entry refuting C6 as stated: total sleep duration 4.5 hours (nine
asleep slots), a value `analyzeSleepData` produces. -/
def e45 : Entry :=
  { date := 0, sleepDuration := some (9/2), mood := some ⟨6, 4⟩ }

/-- C6, counterexample to the claim as stated: a valid entry carrying
duration 4.5 belongs to none of the three buckets, and the miner emits no
statement at all instead of the single-bucket averages the claim
requires. -/
theorem claim_C6_counterexample :
    e45 ∈ sleepValidOf [e45] ∧
    e45 ∉ littleSleepOf [e45] ∧
    e45 ∉ averageSleepOf [e45] ∧
    e45 ∉ lotsSleepOf [e45] ∧
    analyzeSleepImpact [e45] = [] := by
  have hval : sleepValidOf [e45] = [e45] := by
    simp [sleepValidOf, e45, List.filter]
  have hdur : sleepDurOf e45 = 9/2 := by
    simp [sleepDurOf, e45]
  have hlittle : littleSleepOf [e45] = [] := by
    rw [littleSleepOf, hval]
    simp [List.filter, hdur]
    norm_num
  have havg : averageSleepOf [e45] = [] := by
    rw [averageSleepOf, hval]
    simp [List.filter, hdur]
    norm_num
  have hlots : lotsSleepOf [e45] = [] := by
    rw [lotsSleepOf, hval]
    simp [List.filter, hdur]
    norm_num
  refine ⟨by rw [hval]; simp, ?_, ?_, ?_, ?_⟩
  · rw [hlittle]
    simp
  · rw [havg]
    simp
  · rw [hlots]
    simp
  · rw [analyzeSleepImpact]
    rw [if_neg (by rw [hval]; simp)]
    rw [if_pos (by rw [hlittle, havg, hlots]; simp)]

/-- A single-bucket data set for the C6 witness. -/
def e6h : Entry :=
  { date := 0, sleepDuration := some 6, mood := some ⟨6, 4⟩ }

/-- Witness for C6: the bucket characterization at duration 4.5 and the
single-bucket reporting at a one-entry, 6-hour data set. -/
theorem claim_C6_sleep_impact_witness :
    (e45 ∈ sleepValidOf [e45] ∧
      ((e45 ∈ littleSleepOf [e45] ↔ 0 ≤ sleepDurOf e45 ∧ sleepDurOf e45 ≤ 4) ∧
       (e45 ∈ averageSleepOf [e45] ↔ 5 ≤ sleepDurOf e45 ∧ sleepDurOf e45 ≤ 8) ∧
       (e45 ∈ lotsSleepOf [e45] ↔ 8 < sleepDurOf e45) ∧
       (4 < sleepDurOf e45 → sleepDurOf e45 < 5 →
         e45 ∉ littleSleepOf [e45] ∧ e45 ∉ averageSleepOf [e45] ∧
         e45 ∉ lotsSleepOf [e45]))) ∧
    (sleepGroupsOf [e6h] ≠ [] ∧ (sleepGroupsOf [e6h]).length = 1 ∧
      ∃ ins ∈ analyzeSleepImpact [e6h], ins.metric = Metric.mood ∧
        ins.worst = none) := by
  have hval6 : sleepValidOf [e6h] = [e6h] := by
    simp [sleepValidOf, e6h, List.filter]
  have hdur6 : sleepDurOf e6h = 6 := by
    simp [sleepDurOf, e6h]
  have hlittle6 : littleSleepOf [e6h] = [] := by
    rw [littleSleepOf, hval6]
    simp [List.filter, hdur6]
    norm_num
  have havg6 : averageSleepOf [e6h] = [e6h] := by
    rw [averageSleepOf, hval6]
    simp [List.filter, hdur6]
    norm_num
  have hlots6 : lotsSleepOf [e6h] = [] := by
    rw [lotsSleepOf, hval6]
    simp [List.filter, hdur6]
    norm_num
  have hgroups : sleepGroupsOf [e6h]
      = [⟨averageSleepOf [e6h], "average sleep (5-8h)"⟩] := by
    rw [sleepGroupsOf, if_pos (by rw [hlittle6]; simp),
      if_neg (by rw [havg6]; simp), if_pos (by rw [hlots6]; simp)]
    simp
  have hgne : sleepGroupsOf [e6h] ≠ [] := by
    rw [hgroups]
    simp
  have hglen : (sleepGroupsOf [e6h]).length = 1 := by
    rw [hgroups]
    rfl
  have hval45 : e45 ∈ sleepValidOf [e45] := by
    simp [sleepValidOf, e45, List.filter]
  exact ⟨⟨hval45, claim_C6_sleep_impact.1 [e45] e45 hval45⟩,
    hgne, hglen,
    (claim_C6_sleep_impact.2 [e6h] Metric.mood hgne).2.2 hglen⟩

section DegenerateStats

/-- The symbolic result of `calculateCorrelation`: the returned value is
`numerator / Math.sqrt(denomSq)`, kept unevaluated because the square root
is irrational; the guards only test `denomSq`. -/
structure CorrelationResult where
  numerator : ℚ
  denomSq : ℚ
deriving DecidableEq

/-- `calculateCorrelation(values1, values2)` of DATA_SCHEMA.md: `null` on
mismatched lengths, fewer than 2 points, or a zero denominator
(`Math.sqrt(d1*d2) === 0` iff `d1*d2 = 0`). -/
def calculateCorrelation (values1 values2 : List ℚ) : Option CorrelationResult :=
  if values1.length ≠ values2.length ∨ values1.length < 2 then none
  else
    let mean1 := calculateAverage values1
    let mean2 := calculateAverage values2
    let numerator :=
      ((List.zip values1 values2).map (fun p => (p.1 - mean1) * (p.2 - mean2))).sum
    let denominator1 := (values1.map (fun v => (v - mean1) ^ 2)).sum
    let denominator2 := (values2.map (fun v => (v - mean2) ^ 2)).sum
    if denominator1 * denominator2 = 0 then none
    else some ⟨numerator, denominator1 * denominator2⟩

/-- All 1-7 scale fields of the entry are non-negative (absent fields
allowed). -/
def entryFieldsNonneg (e : Entry) : Prop :=
  (∀ x, e.energy = some x → 0 ≤ x.highest) ∧
  (∀ x, e.mood = some x → 0 ≤ x.highest) ∧
  (∀ q, e.anxiety = some q → 0 ≤ q) ∧
  (∀ q, e.irritability = some q → 0 ≤ q)

lemma metricValue_pos (m : Metric) (e : Entry) (h : entryFieldsNonneg e) :
    0 < metricValue m e := by
  obtain ⟨h1, h2, h3, h4⟩ := h
  cases m with
  | energy =>
    rw [metricValue]
    cases he : e.energy with
    | none =>
      show (0 : ℚ) < 4
      norm_num
    | some x =>
      show (0 : ℚ) < if x.highest = 0 then 4 else x.highest
      by_cases hx : x.highest = 0
      · rw [if_pos hx]
        norm_num
      · rw [if_neg hx]
        rcases lt_or_eq_of_le (h1 x he) with hlt | heq
        · exact hlt
        · exact absurd heq.symm hx
  | mood =>
    rw [metricValue]
    cases he : e.mood with
    | none =>
      show (0 : ℚ) < 4
      norm_num
    | some x =>
      show (0 : ℚ) < if x.highest = 0 then 4 else x.highest
      by_cases hx : x.highest = 0
      · rw [if_pos hx]
        norm_num
      · rw [if_neg hx]
        rcases lt_or_eq_of_le (h2 x he) with hlt | heq
        · exact hlt
        · exact absurd heq.symm hx
  | anxiety =>
    rw [metricValue]
    cases he : e.anxiety with
    | none =>
      show (0 : ℚ) < 4
      norm_num
    | some q =>
      show (0 : ℚ) < if q = 0 then 4 else q
      by_cases hq : q = 0
      · rw [if_pos hq]
        norm_num
      · rw [if_neg hq]
        rcases lt_or_eq_of_le (h3 q he) with hlt | heq
        · exact hlt
        · exact absurd heq.symm hq
  | irritability =>
    rw [metricValue]
    cases he : e.irritability with
    | none =>
      show (0 : ℚ) < 4
      norm_num
    | some q =>
      show (0 : ℚ) < if q = 0 then 4 else q
      by_cases hq : q = 0
      · rw [if_pos hq]
        norm_num
      · rw [if_neg hq]
        rcases lt_or_eq_of_le (h4 q he) with hlt | heq
        · exact hlt
        · exact absurd heq.symm hq

lemma calculateAverage_pos (l : List ℚ) (hne : l ≠ []) (h : ∀ x ∈ l, 0 < x) :
    0 < calculateAverage l := by
  rw [calculateAverage]
  have hlen : l.length ≠ 0 := fun h0 => hne (List.length_eq_zero.mp h0)
  rw [if_neg hlen]
  have hsum : 0 < l.sum := List.sum_pos l h hne
  have hlenpos : (0 : ℚ) < l.length := by
    have := List.length_pos.mpr hne
    exact_mod_cast this
  positivity

end DegenerateStats

/-- C7 as amended: the statistics guards hold (mean of empty list is 0;
correlation is `null` on mismatched lengths, fewer than 2 points, or zero
variance, and an emitted correlation always has a positive denominator),
and when every scale field is non-negative every emitted caffeine
comparison has a positive denominator mean; but the zero-denominator group
comparison is NOT skipped by any guard — see the counterexample with an
out-of-range negative anxiety value. -/
theorem claim_C7_degenerate_stats :
    calculateAverage [] = 0 ∧
    (∀ v1 v2 : List ℚ,
      (v1.length ≠ v2.length ∨ v1.length < 2 →
        calculateCorrelation v1 v2 = none) ∧
      (v1.length = v2.length → 2 ≤ v1.length →
        (calculateCorrelation v1 v2 = none ↔
          (v1.map (fun v => (v - calculateAverage v1) ^ 2)).sum = 0 ∨
          (v2.map (fun v => (v - calculateAverage v2) ^ 2)).sum = 0)) ∧
      (∀ r, calculateCorrelation v1 v2 = some r → 0 < r.denomSq)) ∧
    (∀ data : List Entry, (∀ e ∈ data, entryFieldsNonneg e) →
      ∀ ins ∈ analyzeCaffeineImpact data, 0 < ins.avgWithout) := by
  refine ⟨by rw [calculateAverage]; simp, ?_, ?_⟩
  · intro v1 v2
    refine ⟨?_, ?_, ?_⟩
    · intro h
      rw [calculateCorrelation, if_pos h]
    · intro hl h2
      have hcond : ¬(v1.length ≠ v2.length ∨ v1.length < 2) := by
        push_neg
        exact ⟨hl, by omega⟩
      rw [calculateCorrelation, if_neg hcond]
      simp only
      by_cases hz : (v1.map (fun v => (v - calculateAverage v1) ^ 2)).sum
          * (v2.map (fun v => (v - calculateAverage v2) ^ 2)).sum = 0
      · rw [if_pos hz]
        exact ⟨fun _ => mul_eq_zero.mp hz, fun _ => rfl⟩
      · rw [if_neg hz]
        constructor
        · intro h
          exact Option.noConfusion h
        · intro hd
          exact absurd (mul_eq_zero.mpr hd) hz
    · intro r hr
      rw [calculateCorrelation] at hr
      by_cases hcond : v1.length ≠ v2.length ∨ v1.length < 2
      · rw [if_pos hcond] at hr
        exact Option.noConfusion hr
      · rw [if_neg hcond] at hr
        simp only at hr
        by_cases hz : (v1.map (fun v => (v - calculateAverage v1) ^ 2)).sum
            * (v2.map (fun v => (v - calculateAverage v2) ^ 2)).sum = 0
        · rw [if_pos hz] at hr
          exact Option.noConfusion hr
        · rw [if_neg hz] at hr
          injection hr with hr'
          rw [← hr']
          have hd1 : 0 ≤ (v1.map (fun v => (v - calculateAverage v1) ^ 2)).sum := by
            refine List.sum_nonneg ?_
            intro x hx
            obtain ⟨v, -, rfl⟩ := List.mem_map.mp hx
            positivity
          have hd2 : 0 ≤ (v2.map (fun v => (v - calculateAverage v2) ^ 2)).sum := by
            refine List.sum_nonneg ?_
            intro x hx
            obtain ⟨v, -, rfl⟩ := List.mem_map.mp hx
            positivity
          exact lt_of_le_of_ne (mul_nonneg hd1 hd2) (Ne.symm hz)
  · intro data hnonneg ins hins
    rw [analyzeCaffeineImpact] at hins
    by_cases hcond : (caffeineGroup data).length < 1 ∨ (noCaffeineGroup data).length < 1
    · rw [if_pos hcond] at hins
      exact absurd hins (List.not_mem_nil ins)
    · rw [if_neg hcond] at hins
      obtain ⟨m, -, hf⟩ := List.mem_filterMap.mp hins
      obtain ⟨-, havgWo, -, -⟩ := caffeineMetricInsight_fields hf
      rw [havgWo]
      push_neg at hcond
      have hBne : noCaffeineGroup data ≠ [] := by
        intro h0
        rw [h0] at hcond
        simp at hcond
      refine calculateAverage_pos _ (fun h0 => hBne (List.map_eq_nil_iff.mp h0)) ?_
      intro x hx
      obtain ⟨e, he, rfl⟩ := List.mem_map.mp hx
      have hed : e ∈ data := List.mem_of_mem_filter he
      exact metricValue_pos m e (hnonneg e hed)

section DegenerateConcrete

def eCafAnx : Entry := { date := 0, caffeine := some 100, anxiety := some 7 }

def eNegAnx : Entry := { date := 1, anxiety := some (-4) }

def ePosAnx : Entry := { date := 2, anxiety := some 4 }

/-- Entries with an out-of-range negative anxiety value whose caffeine-free
mean is 0. -/
def negSample : List Entry := [eCafAnx, eNegAnx, ePosAnx]

lemma caffeineGroup_negSample : caffeineGroup negSample = [eCafAnx] := by
  norm_num [caffeineGroup, negSample, eCafAnx, eNegAnx, ePosAnx, jsOr,
    List.filter]

lemma noCaffeineGroup_negSample :
    noCaffeineGroup negSample = [eNegAnx, ePosAnx] := by
  norm_num [noCaffeineGroup, negSample, eCafAnx, eNegAnx, ePosAnx, jsOr,
    List.filter]

lemma negMetric_anxiety_eval :
    caffeineMetricInsight [eCafAnx] [eNegAnx, ePosAnx] Metric.anxiety
      = some { metric := Metric.anxiety, avgWith := 7, avgWithout := 0,
               diff := 7, pct := 0, pctDisplay := 0, direction := "worse",
               text := "<strong>Caffeine impact:</strong> Anxiety is 0% worse on days with caffeine" } := by
  have havgW : calculateAverage ([eCafAnx].map (metricValue Metric.anxiety)) = 7 := by
    norm_num [calculateAverage, metricValue, eCafAnx, jsOr]
  have havgWo : calculateAverage
      ([eNegAnx, ePosAnx].map (metricValue Metric.anxiety)) = 0 := by
    norm_num [calculateAverage, metricValue, eNegAnx, ePosAnx, jsOr]
  have h1 : ((7 : ℚ) - 0) / 0 * 100 = 0 := by norm_num
  have h2 : jsToFixed0 0 = 0 := by
    norm_num [jsToFixed0, jsRound, ratFloor_eq_intFloor]
  rw [caffeineMetricInsight]
  simp only [havgW, havgWo, h1, h2]
  rw [if_pos (by norm_num)]
  simp only [metricName]
  norm_num [CaffeineInsight.mk.injEq]
  decide

lemma negMetric_energy_eval :
    caffeineMetricInsight [eCafAnx] [eNegAnx, ePosAnx] Metric.energy = none := by
  have havgW : calculateAverage ([eCafAnx].map (metricValue Metric.energy)) = 4 := by
    norm_num [calculateAverage, metricValue, eCafAnx, jsOr]
  have havgWo : calculateAverage
      ([eNegAnx, ePosAnx].map (metricValue Metric.energy)) = 4 := by
    norm_num [calculateAverage, metricValue, eNegAnx, ePosAnx, jsOr]
  rw [caffeineMetricInsight]
  simp only [havgW, havgWo]
  rw [if_neg (by norm_num)]

lemma negMetric_mood_eval :
    caffeineMetricInsight [eCafAnx] [eNegAnx, ePosAnx] Metric.mood = none := by
  have havgW : calculateAverage ([eCafAnx].map (metricValue Metric.mood)) = 4 := by
    norm_num [calculateAverage, metricValue, eCafAnx, jsOr]
  have havgWo : calculateAverage
      ([eNegAnx, ePosAnx].map (metricValue Metric.mood)) = 4 := by
    norm_num [calculateAverage, metricValue, eNegAnx, ePosAnx, jsOr]
  rw [caffeineMetricInsight]
  simp only [havgW, havgWo]
  rw [if_neg (by norm_num)]

lemma negMetric_irritability_eval :
    caffeineMetricInsight [eCafAnx] [eNegAnx, ePosAnx] Metric.irritability = none := by
  have havgW : calculateAverage
      ([eCafAnx].map (metricValue Metric.irritability)) = 4 := by
    norm_num [calculateAverage, metricValue, eCafAnx, jsOr]
  have havgWo : calculateAverage
      ([eNegAnx, ePosAnx].map (metricValue Metric.irritability)) = 4 := by
    norm_num [calculateAverage, metricValue, eNegAnx, ePosAnx, jsOr]
  rw [caffeineMetricInsight]
  simp only [havgW, havgWo]
  rw [if_neg (by norm_num)]

/-- C7, counterexample to the claim as stated: with a negative
(out-of-range) anxiety value the caffeine-free mean is 0, yet the anxiety
comparison is emitted rather than skipped — its percentage divides by the
zero mean (`Infinity` in JS; division by zero in this model). -/
theorem claim_C7_counterexample :
    analyzeCaffeineImpact negSample
      = [{ metric := Metric.anxiety, avgWith := 7, avgWithout := 0,
           diff := 7, pct := 0, pctDisplay := 0, direction := "worse",
           text := "<strong>Caffeine impact:</strong> Anxiety is 0% worse on days with caffeine" }] ∧
    (∃ ins ∈ analyzeCaffeineImpact negSample, ins.avgWithout = 0) := by
  have heval : analyzeCaffeineImpact negSample
      = [{ metric := Metric.anxiety, avgWith := 7, avgWithout := 0,
           diff := 7, pct := 0, pctDisplay := 0, direction := "worse",
           text := "<strong>Caffeine impact:</strong> Anxiety is 0% worse on days with caffeine" }] := by
    rw [analyzeCaffeineImpact, caffeineGroup_negSample, noCaffeineGroup_negSample]
    rw [if_neg (by norm_num)]
    simp only [List.filterMap_cons, List.filterMap_nil, negMetric_energy_eval,
      negMetric_mood_eval, negMetric_anxiety_eval, negMetric_irritability_eval]
  refine ⟨heval, ?_⟩
  rw [heval]
  exact ⟨_, List.mem_singleton.mpr rfl, rfl⟩

/-- Witness for C7: the correlation guards at concrete inputs and the
positive-denominator conclusion at the non-negative caffeine sample. -/
theorem claim_C7_degenerate_stats_witness :
    calculateCorrelation [1, 2] [1, 2, 3] = none ∧
    calculateCorrelation [1, 1, 1] [1, 2, 3] = none ∧
    ((∀ e ∈ caffSample, entryFieldsNonneg e) ∧
      ∀ ins ∈ analyzeCaffeineImpact caffSample, 0 < ins.avgWithout) := by
  have hnonneg : ∀ e ∈ caffSample, entryFieldsNonneg e := by
    intro e he
    fin_cases he <;>
      refine ⟨fun x hx => absurd hx (by simp [caffE, noCaffE]),
              fun x hx => ?_,
              fun q hq => absurd hq (by simp [caffE, noCaffE]),
              fun q hq => absurd hq (by simp [caffE, noCaffE])⟩ <;>
      (simp only [caffE, noCaffE] at hx
       injection hx with h'
       rw [← h']
       norm_num)
  refine ⟨?_, ?_, hnonneg, claim_C7_degenerate_stats.2.2 caffSample hnonneg⟩
  · exact (claim_C7_degenerate_stats.2.1 [1, 2] [1, 2, 3]).1 (by norm_num)
  · refine ((claim_C7_degenerate_stats.2.1 [1, 1, 1] [1, 2, 3]).2.1
      (by norm_num) (by norm_num)).mpr ?_
    left
    norm_num [calculateAverage]

end DegenerateConcrete

section DateRangeNavigation

/-- The aspects of JS `new Date()` the range code reads: the local day
number (for the week branch) and the local year and 0-based month (for the
other branches). -/
structure NowCtx where
  epochDay : ℤ
  year : ℤ
  month : ℤ
deriving DecidableEq

/-- `Date.prototype.getDay` on a day number (day 0 was a Thursday, code 4;
Sunday is 0). -/
def jsGetDay (d : ℤ) : ℤ := (d + 4).emod 7

/-- The week branch of `getOffsetDateRange`: the Monday of the week
containing `now + offset*7 days`, as a day number. -/
def weekRangeStart (now : NowCtx) (offset : ℤ) : ℤ :=
  let dayOfWeek := jsGetDay now.epochDay
  let daysFromMonday := if dayOfWeek = 0 then 6 else dayOfWeek - 1
  now.epochDay - daysFromMonday + offset * 7

/-- The month branch: `month = now.month + offset` normalized by
`year += Math.floor(month/12); month = ((month%12)+12)%12` (JS `%` is the
truncating remainder `tmod`, `Math.floor` of the quotient is `fdiv`). -/
def monthRangeYM (now : NowCtx) (offset : ℤ) : ℤ × ℤ :=
  let month := now.month + offset
  let year := now.year + month.fdiv 12
  let month2 := ((month.tmod 12) + 12).tmod 12
  (year, month2)

/-- The quarter branch: `currentQuarter = Math.floor(now.month/3)`,
normalized over years by 4. -/
def quarterRangeYQ (now : NowCtx) (offset : ℤ) : ℤ × ℤ :=
  let currentQuarter := now.month.fdiv 3
  let targetQuarter := currentQuarter + offset
  let qYear := now.year + targetQuarter.fdiv 4
  let tq := ((targetQuarter.tmod 4) + 4).tmod 4
  (qYear, tq)

/-- The year branch. -/
def yearRangeY (now : NowCtx) (offset : ℤ) : ℤ := now.year + offset

inductive Period
  | week
  | month
  | threeMonths
  | year
deriving DecidableEq

/-- The range returned by `getOffsetDateRange`, in the calendar coordinates
that determine it: week ranges as inclusive day-number bounds [Monday,
Sunday], month ranges as (year, month) (start day 1, end the month's last
day), quarter ranges as (year, quarter), year ranges as the year. -/
inductive DateRange
  | week (startDay endDay : ℤ)
  | month (year month : ℤ)
  | quarter (year q : ℤ)
  | year (y : ℤ)
deriving DecidableEq

/-- `getOffsetDateRange(period, offset)` of analytics/analytics.js. -/
def getOffsetDateRange (p : Period) (now : NowCtx) (offset : ℤ) : DateRange :=
  match p with
  | .week => .week (weekRangeStart now offset) (weekRangeStart now offset + 6)
  | .month => .month (monthRangeYM now offset).1 (monthRangeYM now offset).2
  | .threeMonths =>
    .quarter (quarterRangeYQ now offset).1 (quarterRangeYQ now offset).2
  | .year => .year (yearRangeY now offset)

/-- Total order position of the period a range lies in (weeks by their
Monday, months by `12*year+month`, quarters by `4*year+quarter`). -/
def periodIndex : DateRange → ℤ
  | .week s _ => s
  | .month y m => 12 * y + m
  | .quarter y q => 4 * y + q
  | .year y => y

/-- The period containing the current instant. -/
def currentPeriodIndex (p : Period) (now : NowCtx) : ℤ :=
  periodIndex (getOffsetDateRange p now 0)

/-- `navigatePeriod(direction)` of analytics/analytics.js as a function on
the stored offset: refuse any step that would make the offset positive. -/
def navigatePeriod (periodOffset direction : ℤ) : ℤ :=
  if 0 < periodOffset + direction then periodOffset else periodOffset + direction

lemma tmod_lower_bound (a : ℤ) {n : ℤ} (hn : 0 < n) : -n < a.tmod n := by
  rcases le_or_lt 0 a with h | h
  · have h1 := Int.tmod_eq_emod h (le_of_lt hn)
    have h2 := Int.emod_nonneg a (by omega : n ≠ 0)
    omega
  · have hna : (0:ℤ) ≤ -a := by omega
    have h1 := Int.tmod_eq_emod hna (le_of_lt hn)
    have h3 : (-a).tmod n = -(a.tmod n) := by
      simp [Int.tmod_def, Int.neg_tdiv]
      ring
    have h4 := Int.emod_lt_of_pos (-a) hn
    omega

/-- The JS wrap-normalization identity:
`n * Math.floor(m/n) + ((m % n) + n) % n = m` for positive `n`. -/
lemma jsWrapNorm {n : ℤ} (hn : 0 < n) (m : ℤ) :
    n * (m.fdiv n) + ((m.tmod n) + n).tmod n = m := by
  have hlow := tmod_lower_bound m hn
  have hup := Int.tmod_lt_of_pos m hn
  have hnn : 0 ≤ m.tmod n + n := by omega
  have h1 : ((m.tmod n) + n).tmod n = ((m.tmod n) + n) % n :=
    Int.tmod_eq_emod hnn (le_of_lt hn)
  have h2 : ((m.tmod n) + n) % n = (m.tmod n) % n := by
    have := Int.add_mul_emod_self_left (m.tmod n) n 1
    simpa using this
  have h3 : (m.tmod n) % n = m % n := by
    rw [Int.tmod_def]
    have hh := Int.add_mul_emod_self_left m n (-(m.tdiv n))
    calc (m - n * m.tdiv n) % n
        = (m + n * (-(m.tdiv n))) % n := by ring_nf
      _ = m % n := hh
  have h4 : m % n = m.fmod n := (Int.fmod_eq_emod m (le_of_lt hn)).symm
  rw [h1, h2, h3, h4]
  have := Int.fdiv_add_fmod m n
  linarith

lemma monthRange_index (now : NowCtx) (offset : ℤ) :
    12 * (monthRangeYM now offset).1 + (monthRangeYM now offset).2
      = 12 * now.year + now.month + offset := by
  rw [monthRangeYM]
  simp only
  have := jsWrapNorm (by norm_num : (0:ℤ) < 12) (now.month + offset)
  linarith

lemma quarterRange_index (now : NowCtx) (offset : ℤ) :
    4 * (quarterRangeYQ now offset).1 + (quarterRangeYQ now offset).2
      = 4 * now.year + now.month.fdiv 3 + offset := by
  rw [quarterRangeYQ]
  simp only
  have := jsWrapNorm (by norm_num : (0:ℤ) < 4) (now.month.fdiv 3 + offset)
  linarith

/-- C8 as amended: `getOffsetDateRange` itself neither rejects nor clamps a
positive offset (see the counterexample); the no-future guarantee lives in
`navigatePeriod`, which refuses any step that would make the stored offset
positive, so the offset invariantly stays ≤ 0 — and for every offset ≤ 0
and every period the returned range lies in the current period or an
earlier one. -/
theorem claim_C8_no_future_navigation :
    (∀ offset direction : ℤ, offset ≤ 0 →
      navigatePeriod offset direction ≤ 0) ∧
    (∀ offset direction : ℤ, 0 < offset + direction →
      navigatePeriod offset direction = offset) ∧
    (∀ (now : NowCtx) (p : Period) (offset : ℤ), offset ≤ 0 →
      periodIndex (getOffsetDateRange p now offset)
        ≤ currentPeriodIndex p now) := by
  refine ⟨?_, ?_, ?_⟩
  · intro offset direction hoff
    rw [navigatePeriod]
    by_cases h : 0 < offset + direction
    · rw [if_pos h]
      exact hoff
    · rw [if_neg h]
      omega
  · intro offset direction h
    rw [navigatePeriod, if_pos h]
  · intro now p offset hoff
    cases p with
    | week =>
      rw [currentPeriodIndex]
      rw [show getOffsetDateRange Period.week now offset
          = DateRange.week (weekRangeStart now offset)
              (weekRangeStart now offset + 6) from rfl]
      rw [show getOffsetDateRange Period.week now 0
          = DateRange.week (weekRangeStart now 0)
              (weekRangeStart now 0 + 6) from rfl]
      rw [periodIndex, periodIndex, weekRangeStart, weekRangeStart]
      omega
    | month =>
      rw [currentPeriodIndex]
      rw [show getOffsetDateRange Period.month now offset
          = DateRange.month (monthRangeYM now offset).1
              (monthRangeYM now offset).2 from rfl]
      rw [show getOffsetDateRange Period.month now 0
          = DateRange.month (monthRangeYM now 0).1
              (monthRangeYM now 0).2 from rfl]
      rw [periodIndex, periodIndex]
      have h1 := monthRange_index now offset
      have h2 := monthRange_index now 0
      omega
    | threeMonths =>
      rw [currentPeriodIndex]
      rw [show getOffsetDateRange Period.threeMonths now offset
          = DateRange.quarter (quarterRangeYQ now offset).1
              (quarterRangeYQ now offset).2 from rfl]
      rw [show getOffsetDateRange Period.threeMonths now 0
          = DateRange.quarter (quarterRangeYQ now 0).1
              (quarterRangeYQ now 0).2 from rfl]
      rw [periodIndex, periodIndex]
      have h1 := quarterRange_index now offset
      have h2 := quarterRange_index now 0
      omega
    | year =>
      rw [currentPeriodIndex]
      rw [show getOffsetDateRange Period.year now offset
          = DateRange.year (yearRangeY now offset) from rfl]
      rw [show getOffsetDateRange Period.year now 0
          = DateRange.year (yearRangeY now 0) from rfl]
      rw [periodIndex, periodIndex, yearRangeY, yearRangeY]
      omega

/-- A concrete "now": 2026-10-12 (day number 20738, a Monday; year 2026,
month index 9 = October). -/
def now2026 : NowCtx := ⟨20738, 2026, 9⟩

/-- C8, counterexample to the claim as stated: `getOffsetDateRange` with
offset +1 returns next year's range, a period strictly after the one
containing the current instant — the positive offset is neither rejected
nor clamped to 0. -/
theorem claim_C8_counterexample :
    getOffsetDateRange Period.year now2026 1 = DateRange.year 2027 ∧
    currentPeriodIndex Period.year now2026 = 2026 ∧
    ¬(periodIndex (getOffsetDateRange Period.year now2026 1)
        ≤ currentPeriodIndex Period.year now2026) ∧
    getOffsetDateRange Period.year now2026 1
      ≠ getOffsetDateRange Period.year now2026 0 := by
  refine ⟨rfl, rfl, ?_, ?_⟩
  · rw [show periodIndex (getOffsetDateRange Period.year now2026 1)
        = 2027 from rfl]
    rw [show currentPeriodIndex Period.year now2026 = 2026 from rfl]
    omega
  · intro h
    rw [show getOffsetDateRange Period.year now2026 1
        = DateRange.year 2027 from rfl] at h
    rw [show getOffsetDateRange Period.year now2026 0
        = DateRange.year 2026 from rfl] at h
    injection h with h'
    omega

/-- Witness for C8: navigation from the current period one step back stays
non-positive, and a 3-months range two quarters back does not lie in the
future. -/
theorem claim_C8_no_future_navigation_witness :
    ((0 : ℤ) ≤ 0 ∧ navigatePeriod 0 (-1) ≤ 0) ∧
    ((-2 : ℤ) ≤ 0 ∧
      periodIndex (getOffsetDateRange Period.threeMonths now2026 (-2))
        ≤ currentPeriodIndex Period.threeMonths now2026) :=
  ⟨⟨le_refl 0, claim_C8_no_future_navigation.1 0 (-1) (le_refl 0)⟩,
   ⟨by norm_num,
    claim_C8_no_future_navigation.2.2 now2026 Period.threeMonths (-2)
      (by norm_num)⟩⟩

end DateRangeNavigation

section HabitMessages

/-- A habit-collection entry; the per-habit minute fields default to 0
(absent fields are read through `|| 0`). -/
structure HabitEntry where
  date : ℤ := 0
  cleaning_time : ℤ := 0
  exercise_time : ℤ := 0
  reading_fiction : ℤ := 0
  reading_nonfiction : ℤ := 0
  reading_fanfic : ℤ := 0
  reading_comic : ℤ := 0
  writing_nonfiction : ℤ := 0
  writing_poetry : ℤ := 0
  writing_prose : ℤ := 0
  writing_reflection : ℤ := 0
  second_language_time : ℤ := 0
deriving DecidableEq

inductive HabitId
  | cleaning
  | exercise
  | reading
  | writing
  | secondLanguage
deriving DecidableEq

/-- `haDayMinutes(entry, id)` of habits-analytics.js. -/
def haDayMinutes (e : HabitEntry) (id : HabitId) : ℤ :=
  match id with
  | .cleaning => e.cleaning_time
  | .exercise => e.exercise_time
  | .reading => e.reading_fiction + e.reading_nonfiction
      + e.reading_fanfic + e.reading_comic
  | .writing => e.writing_nonfiction + e.writing_poetry
      + e.writing_prose + e.writing_reflection
  | .secondLanguage => e.second_language_time

/-- `haTotalMin(entries, id)`. -/
def haTotalMin (entries : List HabitEntry) (id : HabitId) : ℤ :=
  (entries.map (fun e => haDayMinutes e id)).sum

/-- `_msgW_Cleaning`. -/
def msgW_Cleaning (t : ℤ) : String :=
  if t < 20 then "Eeew... Go clean, NOW!"
  else if t ≤ 60 then "Good job, keep it up!"
  else if t ≤ 100 then "Wow, are you a roomba? That\x27s impressive time spent cleaning!"
  else "Are you overcompensating or procrastinating?"

/-- `_msgW_Exercise`. -/
def msgW_Exercise (t : ℤ) : String :=
  if t < 20 then "Get up and move! Your body will thank you!"
  else if t ≤ 60 then "Nice work, keep it up!"
  else if t ≤ 120 then "Wow, are you a Chloe Ting? That\x27s impressive time spent exercising!"
  else "That\x27s suspicious... Keep it up."

/-- `_msgW_Reading`. -/
def msgW_Reading (t : ℤ) : String :=
  if t < 20 then "What the fuck happened to you this week?"
  else if t ≤ 80 then "Go read something, NOW!"
  else if t ≤ 210 then "You should be reading more."
  else if t ≤ 420 then "Nice, but you can do better!"
  else if t ≤ 840 then "Good job, little bookwormie! Knowledge is power even if the knowledge is questionable."
  else if t ≤ 1260 then "Are you studying, researching or binge-reading romance? Either way GOOD JOB!"
  else "Holy fuck you\x27re a bookworm. That is a compliment by the way."

/-- `_msgW_Writing`: the only band function that can return `null`
(`total ≥ 120` and `prose+poetry ≤ 210`). -/
def msgW_Writing (t : ℤ) (entries : List HabitEntry) : Option String :=
  let prose : ℤ := (entries.map (fun e => e.writing_prose)).sum
  let poetry : ℤ := (entries.map (fun e => e.writing_poetry)).sum
  if 210 < prose + poetry then some "Go, little writer, go!"
  else if t < 120 then some "You should be writing more."
  else none

/-- `_msgW_SecondLang`. -/
def msgW_SecondLang (t done : ℤ) : String :=
  if t < 30 ∨ done < 2 then "Idiota."
  else if t ≤ 60 then "Nice, but you can do better!"
  else if t ≤ 120 then "Good job, keep it up!"
  else "Let\x27s do this every week!"

/-- `_msgM_Cleaning`. -/
def msgM_Cleaning (t : ℤ) : String :=
  if t < 80 then "Your place must be a biohazard at this point."
  else if t ≤ 240 then "Decent month — habitat remains habitable!"
  else if t ≤ 400 then "Immaculate home, immaculate vibes."
  else "You\x27ve been cleaning more than living. Go touch grass."

/-- `_msgM_Exercise`. -/
def msgM_Exercise (t : ℤ) : String :=
  if t < 80 then "One month of mostly sitting. Your body is sending distress signals."
  else if t ≤ 240 then "Consistent effort this month. Your future self approves."
  else if t ≤ 480 then "Solid month of movement. You\x27re built different."
  else "Are you training for something or just thriving? Either way, wow."

/-- `_msgM_Reading`. -/
def msgM_Reading (t : ℤ) : String :=
  if t < 80 then "A whole month and barely a page. Shameful."
  else if t ≤ 320 then "A little reading is better than none. But just a little."
  else if t ≤ 840 then "You\x27re keeping the habit alive. Respect."
  else if t ≤ 1680 then "A solid reading month! Your TBR pile is shrinking."
  else if t ≤ 3360 then "You read a lot this month. Like, a lot a lot."
  else if t ≤ 5040 then "At this point reading is your whole personality and that\x27s okay."
  else "You have ascended. The books have chosen you."

/-- `_msgM_Writing` (total, exhaustive: ends in a catch-all). -/
def msgM_Writing (t : ℤ) (entries : List HabitEntry) : String :=
  let prose : ℤ := (entries.map (fun e => e.writing_prose)).sum
  let poetry : ℤ := (entries.map (fun e => e.writing_poetry)).sum
  if t < 480 then "The blank page awaits. It\x27s patient. You shouldn\x27t be."
  else if 840 < prose + poetry then "A creative month! Your characters are grateful."
  else "Writing is showing up. You showed up."

/-- `_msgM_SecondLang`. -/
def msgM_SecondLang (t done : ℤ) : String :=
  if t < 120 ∨ done < 8 then "¿Hablas? Apparently not enough."
  else if t ≤ 240 then "Consistent enough to not forget everything. Barely."
  else if t ≤ 480 then "Solid language month! Neurons are firing."
  else "You\x27re basically fluent at this rate. Keep going."

/-- `_msgQ_Cleaning`. -/
def msgQ_Cleaning (t : ℤ) : String :=
  if t < 240 then "Three months of mild chaos. Nothing wrong with that, I guess."
  else if t ≤ 720 then "Consistent enough to avoid embarrassment. Well done."
  else if t ≤ 1300 then "Your place must be spotless. Teach me your ways."
  else "You are the cleaning. The cleaning is you."

/-- `_msgQ_Exercise`. -/
def msgQ_Exercise (t : ℤ) : String :=
  if t < 240 then "Three months is enough time to form a habit. Start now?"
  else if t ≤ 780 then "You\x27re moving! Not breaking records but definitely not breaking bones either."
  else if t ≤ 1560 then "A quarter of dedicated movement. That\x27s genuinely impressive."
  else "You might actually be built different. Seriously."

/-- `_msgQ_Reading`. -/
def msgQ_Reading (t : ℤ) : String :=
  if t < 240 then "Three months, minimal reading. The books are sad."
  else if t ≤ 1000 then "A gentle reader. Could be more, could be less."
  else if t ≤ 2520 then "Consistent reader! That\x27s what matters."
  else if t ≤ 5040 then "A quarter of serious reading. Goodreads would be proud."
  else "You\x27ve read more in 3 months than most read in a year. Legend."

/-- `_msgQ_Writing` (total). -/
def msgQ_Writing (t : ℤ) (entries : List HabitEntry) : String :=
  let prose : ℤ := (entries.map (fun e => e.writing_prose)).sum
  let poetry : ℤ := (entries.map (fun e => e.writing_poetry)).sum
  if t < 1440 then "Three months is enough time to write... something."
  else if 2520 < prose + poetry then "Three months of creative output. That\x27s a whole draft."
  else "Keep the pen moving."

/-- `_msgQ_SecondLang`. -/
def msgQ_SecondLang (t done : ℤ) : String :=
  if t < 360 ∨ done < 24 then "Three months of half-heartedness. The language noticed."
  else if t ≤ 720 then "Regular practice over 3 months. That\x27s real progress."
  else if t ≤ 1440 then "Impressive dedication. Your accent is getting better."
  else "You\x27re fluent or getting dangerously close. Don\x27t stop now."

/-- `_msgY_Cleaning`. -/
def msgY_Cleaning (t : ℤ) : String :=
  if t < 1040 then "A whole year of questionable hygiene choices."
  else if t ≤ 3120 then "Steady, reliable, unglamorous. Just like cleaning itself."
  else if t ≤ 5200 then "Clean home, clear mind. You\x27ve got this down."
  else "At this point just hire a cleaner and live a little."

/-- `_msgY_Exercise`. -/
def msgY_Exercise (t : ℤ) : String :=
  if t < 1040 then "A year went by. Your gym membership is crying."
  else if t ≤ 3120 then "Consistent mover. You should be proud."
  else if t ≤ 5200 then "A whole year of real effort. Your body is a testament to it."
  else "This is not normal (compliment). An absolute unit."

/-- `_msgY_Reading`. -/
def msgY_Reading (t : ℤ) : String :=
  if t < 1040 then "A year passed. The library misses you."
  else if t ≤ 4000 then "You read. Not a lot, but you read. Counts."
  else if t ≤ 10000 then "A genuine reader with a genuine habit. Beautiful."
  else if t ≤ 20000 then "This is what a bibliophile looks like. Magnificent."
  else "You have transcended the physical plane through books."

/-- `_msgY_Writing` (total). -/
def msgY_Writing (t : ℤ) (entries : List HabitEntry) : String :=
  let prose : ℤ := (entries.map (fun e => e.writing_prose)).sum
  let poetry : ℤ := (entries.map (fun e => e.writing_poetry)).sum
  if t < 5200 then "A year went by. What story didn\x27t get written?"
  else if 10000 < prose + poetry then "A year of real creative work. That\x27s a body of work."
  else "Every word you wrote this year matters."

/-- `_msgY_SecondLang`. -/
def msgY_SecondLang (t done : ℤ) : String :=
  if t < 1440 then "A year of sporadic language learning. Better than nothing, barely."
  else if t ≤ 5000 then "A year of consistent practice. You\x27ve grown, linguistically."
  else "A whole year of language dedication. Stunning. Bilingual queen."

/-- `haGetMsg(id, period, total, done, entries)` of habits-analytics.js. -/
def haGetMsg (id : HabitId) (period : Period) (total done : ℤ)
    (entries : List HabitEntry) : Option String :=
  match id, period with
  | .cleaning, .week => some (msgW_Cleaning total)
  | .cleaning, .month => some (msgM_Cleaning total)
  | .cleaning, .threeMonths => some (msgQ_Cleaning total)
  | .cleaning, .year => some (msgY_Cleaning total)
  | .exercise, .week => some (msgW_Exercise total)
  | .exercise, .month => some (msgM_Exercise total)
  | .exercise, .threeMonths => some (msgQ_Exercise total)
  | .exercise, .year => some (msgY_Exercise total)
  | .reading, .week => some (msgW_Reading total)
  | .reading, .month => some (msgM_Reading total)
  | .reading, .threeMonths => some (msgQ_Reading total)
  | .reading, .year => some (msgY_Reading total)
  | .writing, .week => msgW_Writing total entries
  | .writing, .month => some (msgM_Writing total entries)
  | .writing, .threeMonths => some (msgQ_Writing total entries)
  | .writing, .year => some (msgY_Writing total entries)
  | .secondLanguage, .week => some (msgW_SecondLang total done)
  | .secondLanguage, .month => some (msgM_SecondLang total done)
  | .secondLanguage, .threeMonths => some (msgQ_SecondLang total done)
  | .secondLanguage, .year => some (msgY_SecondLang total done)

/-- C9 as amended: for every habit and period the dispatcher returns at
most one message, and exactly one except through the writing/week band
function, which returns no message when the weekly writing total is at
least 120 minutes and its prose+poetry portion is at most 210 minutes —
the bands are otherwise exhaustive, each ending in a catch-all. -/
theorem claim_C9_habit_messages :
    ∀ (id : HabitId) (period : Period) (total done : ℤ)
      (entries : List HabitEntry),
      (haGetMsg id period total done entries).isSome
        ↔ ¬(id = HabitId.writing ∧ period = Period.week ∧
            (entries.map (fun e => e.writing_prose)).sum
              + (entries.map (fun e => e.writing_poetry)).sum ≤ 210 ∧
            120 ≤ total) := by
  intro id period total done entries
  cases id <;> cases period <;>
    simp only [haGetMsg, Option.isSome_some, true_iff, msgW_Writing] <;>
    try simp
  by_cases h1 : 210 < (entries.map (fun e => e.writing_prose)).sum
      + (entries.map (fun e => e.writing_poetry)).sum
  · rw [if_pos h1]
    simp only [Option.isSome_some, true_iff]
    intro hc
    omega
  · rw [if_neg h1]
    by_cases h2 : total < 120
    · rw [if_pos h2]
      simp only [Option.isSome_some, true_iff]
      intro hc
      omega
    · rw [if_neg h2]
      simp only [Option.isSome_none, Bool.false_eq_true, false_iff]
      omega

/-- The entry refuting C9 as stated: 120 prose minutes in the week. -/
def wEntry120 : HabitEntry := { writing_prose := 120 }

/-- C9, counterexample to the claim as stated: for the writing habit in the
week period with total 120 (the actual total of the sample entries) the
rule table selects no message at all. -/
theorem claim_C9_counterexample :
    haTotalMin [wEntry120] HabitId.writing = 120 ∧
    haGetMsg HabitId.writing Period.week 120 0 [wEntry120] = none := by
  constructor
  · rw [haTotalMin]
    simp [haDayMinutes, wEntry120]
  · rw [haGetMsg, msgW_Writing]
    rw [if_neg (by simp [wEntry120])]
    rw [if_neg (by norm_num)]

end HabitMessages
